import Mathlib

/-!
Verification development for the harrix-pylib Markdown / Python checkers.

The Python sources (`markdown_checker.py`, `python_checker.py`,
`funcs_md.py`, `funcs_file.py`) are shallowly embedded here.  Python
strings are modelled as `List Char` (sequences of Unicode scalar
values), fallible file reads as `Except String`, and generators as
`List`-producing functions.  Loops that are not structurally recursive
are implemented with an explicit fuel argument that is initialised
large enough to never run out.  Two helpers of the repository
(`identify_code_blocks`, `identify_code_blocks_line` of
`harrix_pylib.funcs_md`) and the external YAML parser are not part of
the provided sources; they are modelled from the specification and are
marked as such in their doc comments.
-/

/-- Python strings are sequences of Unicode scalar values. -/
abbrev Str := List Char

/-- Whitespace characters recognised by Python's `str.strip` (ASCII subset). -/
def pySpace (c : Char) : Bool :=
  c = ' ' || c = '\t' || c = '\n' || c = '\x0d' || c = '\x0b' || c = '\x0c'

/-- Python `str.lstrip()` (no argument). -/
def pyLstrip (s : Str) : Str := s.dropWhile pySpace

/-- Python `str.rstrip()` (no argument). -/
def pyRstrip (s : Str) : Str := (s.reverse.dropWhile pySpace).reverse

/-- Python `str.strip()` (no argument). -/
def pyStrip (s : Str) : Str := pyRstrip (pyLstrip s)

/-- Decidable substring membership: Python `needle in haystack`. -/
def containsSub (haystack needle : Str) : Bool :=
  match haystack with
  | [] => needle.isEmpty
  | _ :: rest => needle.isPrefixOf haystack || containsSub rest needle

/-- Python `haystack.find(needle)` restricted to found results:
first index at which `needle` occurs, if any. -/
def findSub (haystack needle : Str) : Option Nat :=
  match haystack with
  | [] => if needle.isEmpty then some 0 else none
  | _ :: rest =>
      if needle.isPrefixOf haystack then some 0
      else (findSub rest needle).map (· + 1)

/-- Python `haystack.find(needle, start)`. -/
def findSubFrom (haystack needle : Str) (start : Nat) : Option Nat :=
  (findSub (haystack.drop start) needle).map (· + start)

/-- Index (with width) of the first line boundary `\n`, `\r\n` or `\r`. -/
def lineBreakAt : Str → Option (Nat × Nat)
  | [] => none
  | '\n' :: _ => some (0, 1)
  | '\x0d' :: '\n' :: _ => some (0, 2)
  | '\x0d' :: _ => some (0, 1)
  | _ :: rest => (lineBreakAt rest).map (fun p => (p.1 + 1, p.2))

/-- Fuelled worker for `pySplitlines`; one unit of fuel per produced line. -/
def pySplitlinesAux : Nat → Str → List Str
  | 0, _ => []
  | fuel + 1, s =>
      match s with
      | [] => []
      | _ :: _ =>
          match lineBreakAt s with
          | none => [s]
          | some (i, skip) => s.take i :: pySplitlinesAux fuel (s.drop (i + skip))

/-- Python `str.splitlines()`: split on `\n`, `\r\n` and `\r`
(the line boundaries occurring in UTF-8 Markdown files);
a trailing terminator yields no trailing empty line. -/
def pySplitlines (s : Str) : List Str := pySplitlinesAux (s.length + 1) s

/-- Python `str.endswith(t)`. -/
def endsWith (s t : Str) : Bool := t.isSuffixOf s

/-- Python `str.startswith(t)`. -/
def startsWith (s t : Str) : Bool := t.isPrefixOf s

/-- Python `str.startswith((t1, …, tn))`. -/
def startsWithAny (s : Str) (ts : List Str) : Bool := ts.any (fun t => startsWith s t)

/-- Python `str.lower()` on a character, for the scripts the checker
handles: ASCII Latin and Cyrillic (`А`–`Я` and `Ё`). -/
def pyLowerChar (c : Char) : Char :=
  if 0x0410 ≤ c.toNat && c.toNat ≤ 0x042F then Char.ofNat (c.toNat + 0x20)
  else if c.toNat = 0x0401 then Char.ofNat 0x0451
  else c.toLower

/-- Python `str.lower()` (ASCII Latin and Cyrillic case folding). -/
def pyLower (s : Str) : Str := s.map pyLowerChar

/-- Python `str.upper()` (ASCII). -/
def pyUpper (s : Str) : Str := s.map Char.toUpper

/-- Fuelled worker for `pySplit`. -/
def pySplitAux : Nat → Str → Str → List Str
  | 0, s, _ => [s]
  | fuel + 1, s, sep =>
      match findSub s sep with
      | none => [s]
      | some i => s.take i :: pySplitAux fuel (s.drop (i + sep.length)) sep

/-- Python `str.split(sep)` for a non-empty separator (all occurrences). -/
def pySplit (s sep : Str) : List Str := pySplitAux (s.length + 1) s sep

/-- Fuelled worker for `replaceAll`. -/
def replaceAllAux : Nat → Str → Str → Str → Str
  | 0, s, _, _ => s
  | fuel + 1, s, old, new =>
      match s with
      | [] => []
      | c :: rest =>
          if old.isPrefixOf s && !old.isEmpty then
            new ++ replaceAllAux fuel (s.drop old.length) old new
          else
            c :: replaceAllAux fuel rest old new

/-- Python `str.replace(old, new)`, all non-overlapping occurrences. -/
def replaceAll (s old new : Str) : Str := replaceAllAux (s.length + 1) s old new

/-- Fuelled worker for `countSub`. -/
def countSubAux : Nat → Str → Str → Nat
  | 0, _, _ => 0
  | fuel + 1, s, needle =>
      match s with
      | [] => 0
      | _ :: rest =>
          if needle.isPrefixOf s && !needle.isEmpty then
            1 + countSubAux fuel (s.drop needle.length) needle
          else
            countSubAux fuel rest needle

/-- Python `str.count(needle)` for a non-empty needle
(non-overlapping occurrences). -/
def countSub (s needle : Str) : Nat := countSubAux (s.length + 1) s needle

/-- Python `str.isdigit()` on a single character (ASCII digits). -/
def pyIsDigit (c : Char) : Bool := c.isDigit

/-- Cyrillic letter, matching the source regex
`[а-яёА-ЯЁ]` (`U+0430`–`U+044F`, `U+0451`, `U+0410`–`U+042F`, `U+0401`). -/
def isRussianChar (c : Char) : Bool :=
  (0x0430 ≤ c.toNat && c.toNat ≤ 0x044F) || c.toNat = 0x0451 ||
  (0x0410 ≤ c.toNat && c.toNat ≤ 0x042F) || c.toNat = 0x0401

/-- Word character for the checker's regexes: the class
`[a-zA-Zа-яА-ЯёЁ0-9_]` used by the source's look-around patterns,
which also covers the `\w` matches arising in the word tables. -/
def isWordChar (c : Char) : Bool :=
  c.isAlphanum || c = '_' || isRussianChar c

/-- Alphabetic test for `str.isalpha()` restricted to the scripts the
checker's documents use (ASCII Latin and Cyrillic). -/
def pyIsAlpha (c : Char) : Bool := c.isAlpha || isRussianChar c

/-- Lower-case test for `str.islower()` restricted to ASCII Latin and
Cyrillic. -/
def pyIsLower (c : Char) : Bool :=
  ('a' ≤ c && c ≤ 'z') || (0x0430 ≤ c.toNat && c.toNat ≤ 0x044F) || c.toNat = 0x0451

/-- First index of character `c` in `s`. -/
def findChar (s : Str) (c : Char) : Option Nat := findSub s [c]

/-- All indices of character `c` in `s`, ascending. -/
def allIdxOf (s : Str) (c : Char) : List Nat :=
  s.enum.filterMap (fun p => if p.2 = c then some p.1 else none)

/-- Last index of character `c` in `s` (Python `str.rfind` on found inputs). -/
def rfindChar (s : Str) (c : Char) : Option Nat := (allIdxOf s c).getLast?

/-- A structured diagnostic: rule code, message, 1-based line and column
(`0` meaning "absent", as in the source's `_format_error` defaults). -/
structure Diag where
  code : String
  msg : String
  line : Nat
  col : Nat
  deriving Repr, DecidableEq

/-- `MarkdownChecker._format_error` / `PythonChecker._format_error` core:
`<rel-path>[:<line>[:<col>]]: <CODE> <message>`.  The project-root-relative
path rendering (`_get_relative_path`) is abstracted into the given
`relPath` string, since it queries the file system. -/
def format_error (relPath : String) (d : Diag) : String :=
  relPath ++
    (if d.line > 0 then
      ":" ++ toString d.line ++ (if d.col > 0 then ":" ++ toString d.col else "")
    else "") ++
    ": " ++ d.code ++ " " ++ d.msg

/-- A Markdown file as the checker sees it: its final path component
(`filename.name`), the full path string (`str(filename)`), the rendered
project-root-relative path, and the result of `read_text` (`Except.error`
models an I/O or decoding exception carrying the exception text). -/
structure MDFile where
  name : Str
  pathStr : Str
  relPath : String
  content : Except String Str
  deriving Repr

/-- Leading backtick run length of a string. -/
def backtickRun (s : Str) : Nat := (s.takeWhile (fun c => c = '`')).length

/-- Modelled from the spec: fenced-code classification of content lines
performed by `harrix_pylib.funcs_md.identify_code_blocks`, whose source is
not part of the provided files.  Walk the lines keeping the current fence
length (initially none).  A trimmed line opening with a run of `≥ 3`
backticks opens a fence when none is active (line marked code) and closes
the fence when the run length equals the active fence (line marked code);
any other line is code iff a fence is active. -/
def identifyCodeBlocksAux (fence : Option Nat) : List Str → List (Str × Bool)
  | [] => []
  | line :: rest =>
      if 3 ≤ backtickRun (pyStrip line) then
        match fence with
        | none => (line, true) :: identifyCodeBlocksAux (some (backtickRun (pyStrip line))) rest
        | some n =>
            if backtickRun (pyStrip line) = n then (line, true) :: identifyCodeBlocksAux none rest
            else (line, true) :: identifyCodeBlocksAux (some n) rest
      else
        (line, fence.isSome) :: identifyCodeBlocksAux fence rest

/-- Modelled from the spec: `identify_code_blocks(lines)` yields each line
paired with its is-code flag. -/
def identifyCodeBlocks (lines : List Str) : List (Str × Bool) :=
  identifyCodeBlocksAux none lines

/-- Index (within `cs`) of the first maximal backtick run of exactly `n`
backticks; runs of a different length are skipped whole. -/
def findCloseRunAux : Nat → Str → Nat → Option Nat
  | 0, _, _ => none
  | fuel + 1, cs, n =>
      match cs with
      | [] => none
      | c :: rest =>
          if c = '`' then
            let r := backtickRun cs
            if r = n then some 0
            else (findCloseRunAux fuel (cs.drop r) n).map (· + r)
          else
            (findCloseRunAux fuel rest n).map (· + 1)

/-- As `findCloseRunAux`, with enough fuel. -/
def findCloseRun (cs : Str) (n : Nat) : Option Nat :=
  findCloseRunAux (cs.length + 1) cs n

/-- Modelled from the spec: one step of the inline-code partition of
`harrix_pylib.funcs_md.identify_code_blocks_line`, whose source is not
part of the provided files.  Scan left to right; a backtick run of length
`n` opens an inline span closed by the next run of exactly `n` backticks
on the same line (the span includes both fences); an unmatched open
leaves the remainder of the line as prose.  `pending` is prose text that
precedes the position currently scanned. -/
def identifyCodeBlocksLineAux : Nat → Str → Str → List (Str × Bool)
  | 0, pending, rest =>
      if (pending ++ rest).isEmpty then [] else [(pending ++ rest, false)]
  | fuel + 1, pending, rest =>
      match rest.findIdx? (fun c => c = '`') with
      | none => if (pending ++ rest).isEmpty then [] else [(pending ++ rest, false)]
      | some i =>
          let pre := rest.take i
          let after0 := rest.drop i
          let n := backtickRun after0
          let body := after0.drop n
          match findCloseRun body n with
          | none => if (pending ++ rest).isEmpty then [] else [(pending ++ rest, false)]
          | some j =>
              let span := after0.take (n + j + n)
              (if (pending ++ pre).isEmpty then [] else [(pending ++ pre, false)]) ++
                (span, true) :: identifyCodeBlocksLineAux fuel [] (after0.drop (n + j + n))

/-- Modelled from the spec: `identify_code_blocks_line(line)` — the
lossless partition of a prose line into `(segment, in_code)` pieces. -/
def identifyCodeBlocksLine (line : Str) : List (Str × Bool) :=
  identifyCodeBlocksLineAux (line.length + 1) [] line

/-- Modelled from the spec: the external safe YAML parser, restricted to
the flat `key: value` front matter this checker reads ("A `lang` key, if
present, must parse to a scalar string").  Returns `none` for an empty
document, a key/value list for `key: value` lines, and an error for a
non-empty line that has no colon (standing for `yaml.YAMLError`).
Lines equal to `---` are document separators and are skipped. -/
def yamlSafeLoad (s : Str) : Except String (Option (List (Str × Str))) :=
  let lines := (pySplitlines s).map pyStrip
  let meaningful := lines.filter (fun l => !l.isEmpty && l ≠ ('-' :: '-' :: '-' :: []))
  if meaningful.any (fun l => !containsSub l [':']) then
    .error "could not parse"
  else
    match meaningful with
    | [] => .ok none
    | _ =>
        .ok (some (meaningful.map (fun l =>
          let i := (findChar l ':').getD l.length
          (pyStrip (l.take i), pyStrip (l.drop (i + 1))))))

/-- `harrix_pylib.funcs_md.split_yaml_content`: split a note on the first
two occurrences of `---`; fewer than two occurrences yield
`("", note)`, otherwise `("---" ++ middle ++ "---", rest.lstrip())`. -/
def split_yaml_content (note : Str) : Str × Str :=
  match findSub note ('-' :: '-' :: '-' :: []) with
  | none => ([], note)
  | some i =>
      let rest1 := note.drop (i + 3)
      match findSub rest1 ('-' :: '-' :: '-' :: []) with
      | none => ([], note)
      | some j =>
          (('-' :: '-' :: '-' :: []) ++ rest1.take j ++ ('-' :: '-' :: '-' :: []),
            pyLstrip (rest1.drop (j + 3)))

namespace MarkdownChecker

/-- The rule registry `MarkdownChecker.RULES` (codes and titles, in
declaration order). -/
def RULES : List (String × String) := [
  ("H001", "Presence of a space in the Markdown file name"),
  ("H002", "Presence of a space in the path to the Markdown file"),
  ("H003", "YAML is missing"),
  ("H004", "The lang field is missing in YAML"),
  ("H005", "In YAML, lang is not set to en or ru"),
  ("H006", "Incorrect word form used"),
  ("H007", "Incorrect code block language identifier"),
  ("H008", "Trailing whitespace at end of line"),
  ("H009", "Double spaces in line"),
  ("H010", "Tab character found"),
  ("H011", "No empty line at end of file"),
  ("H012", "Two consecutive empty lines"),
  ("H013", "Missing colon before code block"),
  ("H014", "Missing colon before image"),
  ("H015", "Space before punctuation mark"),
  ("H016", "Incorrect dash/hyphen usage"),
  ("H017", "Three dots instead of ellipsis character"),
  ("H018", "Curly/straight quotes instead of angle quotes"),
  ("H019", "HTML tags in markdown content"),
  ("H020", "Image caption starts with lowercase letter"),
  ("H021", "Lowercase letter after sentence-ending punctuation"),
  ("H022", "Non-breaking space character found"),
  ("H023", "No empty line between paragraphs"),
  ("H024", "Capitalized Russian polite pronoun (use lowercase when addressing reader)"),
  ("H025", "Latin x or Cyrillic x used instead of multiplication sign ×"),
  ("H026", "Image markdown ![ found not at start of line"),
  ("H028", "Horizontal bar ― (dialogue dash) should not be used"),
  ("H029", "Space required after №"),
  ("H030", "Question mark followed by period (?.)")]

/-- Title text of a rule code. -/
def ruleText (c : String) : String := (RULES.lookup c).getD ""

/-- `self.all_rules` — the known rule codes. -/
def all_rules : List String := RULES.map (fun p => p.1)

/-- `MarkdownChecker.RUSSIAN_POLITE_PRONOUNS_CAPITALIZED` (source order). -/
def RUSSIAN_POLITE_PRONOUNS_CAPITALIZED : List String := [
  "Вы", "Вас", "Вам", "Вами", "Ваш", "Вашего", "Ваше", "Вашу", "Вашей",
  "Ваша", "Вашему", "Вашим", "Вашем", "Вашею", "Ваши", "Ваших", "Вашими"]

/-- `MarkdownChecker.INCORRECT_WORDS` (source order; Python 3.7+ dicts
iterate in insertion order). -/
def INCORRECT_WORDS : List (String × String) := [
  ("Latex", "LaTeX"),
  ("latex", "LaTeX"),
  ("e-mail", "email"),
  ("cms", "CMS"),
  ("СЬS", "CMS"),
  ("СMS", "CMS"),
  ("СМS", "CMS"),
  ("сms", "CMS"),
  ("смs", "CMS"),
  ("СМС", "CMS"),
  ("смс", "CMS"),
  ("css", "CSS"),
  ("html", "HTML"),
  ("pdf", "PDF"),
  ("php", "PHP"),
  ("svg", "SVG"),
  ("xml", "XML"),
  ("odf", "ODF"),
  ("odt", "ODT"),
  ("dll", "DLL"),
  ("Dll", "DLL"),
  ("exe", "EXE"),
  ("qml", "QML"),
  ("web документ", "веб-документ"),
  ("Web документ", "веб-документ"),
  ("WEB документ", "веб-документ"),
  ("web приложение", "веб-приложение"),
  ("Web приложение", "веб-приложение"),
  ("WEB приложение", "веб-приложение"),
  ("web приложения", "веб-приложения"),
  ("Web приложения", "веб-приложения"),
  ("WEB приложения", "веб-приложения"),
  ("c++", "C++"),
  ("с++", "C++"),
  ("С++", "C++"),
  ("с#", "C#"),
  ("С#", "C#"),
  ("сpp", "cpp"),
  ("срр", "cpp"),
  ("pascal", "Pascal"),
  ("c++11", "C++11"),
  ("с++11", "C++11"),
  ("С++11", "C++11"),
  ("c++17", "C++17"),
  ("с++17", "C++17"),
  ("С++17", "C++17"),
  ("c++20", "C++20"),
  ("с++20", "C++20"),
  ("С++20", "C++20"),
  ("ok", "OK"),
  ("Ok", "OK"),
  ("ОК", "OK"),
  ("ок", "OK"),
  ("id", "ID"),
  ("Id", "ID"),
  ("javaScript", "JavaScript"),
  ("Javascript", "JavaScript"),
  ("javascript", "JavaScript"),
  ("Php", "PHP"),
  ("Йе", "Qt"),
  ("йе", "Qt"),
  ("qt", "Qt"),
  ("android", "Android"),
  ("java", "Java"),
  ("apk", "APK"),
  ("markdon", "Markdown"),
  ("markdown", "Markdown"),
  ("Github", "GitHub"),
  ("github", "GitHub"),
  ("git", "Git"),
  ("т.е.", "т. е."),
  ("Т.е.", "Т. е."),
  ("т.д.", "т. д."),
  ("т.ч.", "т. ч."),
  ("т.п.", "т. п.")]

/-- `MarkdownChecker.INCORRECT_LANGUAGES`. -/
def INCORRECT_LANGUAGES : List (String × String) := [
  ("console", "shell"),
  ("py", "python")]

/-- `MarkdownChecker.FORBIDDEN_HTML_TAGS`. -/
def FORBIDDEN_HTML_TAGS : List String := [
  "<pre class", "<table", "<strong", "<b>", "<b ", "<a>", "<a ",
  "<i>", "<i ", "<p>", "<p ", "<h1", "<h2", "<h3", "<h4", "<h5", "<h6", "</"]

/-- Cumulative `(start, end)` ranges of the in-code pieces of the
inline-code partition of a line (the `code_ranges` lists the source
builds in `_check_quotes`-style scans). -/
def code_ranges_aux : List (Str × Bool) → Nat → List (Nat × Nat)
  | [], _ => []
  | (seg, inCode) :: rest, pos =>
      (if inCode then [(pos, pos + seg.length)] else []) ++
        code_ranges_aux rest (pos + seg.length)

/-- Inline-code ranges of a line. -/
def code_ranges_of (line : Str) : List (Nat × Nat) :=
  code_ranges_aux (identifyCodeBlocksLine line) 0

/-- `any(start <= offset < end for start, end in code_ranges)`. -/
def inRanges (rs : List (Nat × Nat)) (p : Nat) : Bool :=
  rs.any (fun r => r.1 ≤ p && p < r.2)

/-- `MarkdownChecker._remove_inline_code`. -/
def remove_inline_code (line : Str) : Str :=
  (identifyCodeBlocksLine line).foldl (fun acc p => if p.2 then acc else acc ++ p.1) []

/-- `re.sub(r"\]\([^)]*\)", "]()", s)` — blank out markdown-link URLs. -/
def sub_link_urls_aux : Nat → Str → Str
  | 0, s => s
  | fuel + 1, s =>
      match s with
      | [] => []
      | c :: rest =>
          if c = ']' && rest.head? = some '(' then
            let after := rest.tail
            let inner := after.takeWhile (fun d => d ≠ ')')
            if (after.drop inner.length).head? = some ')' then
              ']' :: '(' :: ')' :: sub_link_urls_aux fuel (after.drop (inner.length + 1))
            else c :: sub_link_urls_aux fuel rest
          else c :: sub_link_urls_aux fuel rest

/-- `re.sub(r"\]\([^)]*\)", "]()", s)`. -/
def sub_link_urls (s : Str) : Str := sub_link_urls_aux (s.length + 1) s

/-- `re.sub(r"<[^>]*>", "<>", s)` — blank out angle-bracket contents. -/
def sub_angle_tags_aux : Nat → Str → Str
  | 0, s => s
  | fuel + 1, s =>
      match s with
      | [] => []
      | c :: rest =>
          if c = '<' then
            let inner := rest.takeWhile (fun d => d ≠ '>')
            if (rest.drop inner.length).head? = some '>' then
              '<' :: '>' :: sub_angle_tags_aux fuel (rest.drop (inner.length + 1))
            else c :: sub_angle_tags_aux fuel rest
          else c :: sub_angle_tags_aux fuel rest

/-- `re.sub(r"<[^>]*>", "<>", s)`. -/
def sub_angle_tags (s : Str) : Str := sub_angle_tags_aux (s.length + 1) s

/-- The `clean_line` of `_check_non_code_line_rules`: inline code
removed, link URLs and angle-bracket contents blanked. -/
def clean_line_of (line : Str) : Str :=
  sub_angle_tags (sub_link_urls (remove_inline_code line))

/-- First match of the word-boundary search the source uses for H006:
`\b<word>\b` for words made of word characters only, and the
look-around `(?<![a-zA-Zа-яА-ЯёЁ0-9_])<word>(?![a-zA-Zа-яА-ЯёЁ0-9_])`
otherwise; over the modelled character universe (Latin, Cyrillic,
digits, underscore) both reduce to the same boundary test. -/
def findWordMatchAux (w : Str) : Str → Option Char → Nat → Option Nat
  | [], _, _ => none
  | c :: rest, prev, idx =>
      if w.isPrefixOf (c :: rest)
          && (match prev with | none => true | some p => !isWordChar p)
          && (match ((c :: rest).drop w.length).head? with
              | none => true
              | some nx => !isWordChar nx) then
        some idx
      else findWordMatchAux w rest (some c) (idx + 1)

/-- First boundary match of `w` in `s`. -/
def findWordBoundaryMatch (s w : Str) : Option Nat := findWordMatchAux w s none 0

/-- All boundary matches of `w` in `s`, ascending (matches of a
boundary-delimited word cannot overlap, so the position scan agrees
with `re.finditer`). -/
def wordMatchesAux (w : Str) : Str → Option Char → Nat → List Nat
  | [], _, _ => []
  | c :: rest, prev, idx =>
      (if w.isPrefixOf (c :: rest)
          && (match prev with | none => true | some p => !isWordChar p)
          && (match ((c :: rest).drop w.length).head? with
              | none => true
              | some nx => !isWordChar nx) then
        [idx]
      else []) ++ wordMatchesAux w rest (some c) (idx + 1)

/-- All boundary matches of `w` in `s`. -/
def wordMatchesAll (s w : Str) : List Nat := wordMatchesAux w s none 0

/-- `MarkdownChecker._check_all_lines_rules` (H008, H010, H022). -/
def check_all_lines_rules (line : Str) (line_num : Nat) (rules : List String) : List Diag :=
  (if rules.contains "H008" && line ≠ pyRstrip line then
    [⟨"H008", ruleText "H008", line_num, (pyRstrip line).length + 1⟩]
  else []) ++
  (if rules.contains "H010" && containsSub line "\t".toList then
    [⟨"H010", ruleText "H010", line_num, (findSub line "\t".toList).getD 0 + 1⟩]
  else []) ++
  (if rules.contains "H022" && containsSub line " ".toList then
    [⟨"H022", ruleText "H022", line_num, (findSub line " ".toList).getD 0 + 1⟩]
  else [])

/-- `MarkdownChecker._should_check_paragraph_end`. -/
def should_check_paragraph_end (line : Str) : Bool :=
  if (pyStrip line).isEmpty then false
  else if pyStrip line = "```".toList then false
  else if startsWith (pyStrip line) "![".toList then false
  else !startsWith (pyStrip line) "#".toList

/-- Markers exempting a line from H013. -/
def H013_MARKERS : List String := [
  "[!DETAILS]", "[!WARNING]", "[!IMPORTANT]", "[!NOTE]",
  "<!-- !details -->", "<!-- !note -->", "<!-- !important -->", "<!-- !warning -->"]

/-- Markers exempting a line from H014. -/
def H014_MARKERS : List String := [
  "<!-- !details -->", "<!-- !note -->", "<!-- !important -->", "<!-- !warning -->"]

/-- `MarkdownChecker._check_colon_before_code` (H013). -/
def check_colon_before_code (line : Str) (line_num : Nat) (line_index : Nat)
    (code_block_info : List (Str × Bool)) : List Diag :=
  if line_index + 2 ≥ code_block_info.length then []
  else
    let next_line := (code_block_info.getD (line_index + 1) ([], false)).1
    let next_next_line := (code_block_info.getD (line_index + 2) ([], false)).1
    if !should_check_paragraph_end line then []
    else if (pyStrip next_line).isEmpty && startsWith (pyStrip next_next_line) "```".toList then
      let last_char := (pyRstrip line).getLast?
      if H013_MARKERS.any (fun m => containsSub line m.toList) then []
      else if startsWith (pyStrip line) "<".toList then []
      else if last_char ≠ some ':' then
        [⟨"H013",
          ruleText "H013" ++ ": last char is \"" ++
            (match last_char with | some c => String.mk [c] | none => "") ++ "\"",
          line_num, (pyRstrip line).length⟩]
      else []
    else []

/-- `MarkdownChecker._check_colon_before_image` (H014). -/
def check_colon_before_image (line : Str) (line_num : Nat)
    (content_lines : List Str) (line_index : Nat) : List Diag :=
  if line_index + 2 ≥ content_lines.length then []
  else if !should_check_paragraph_end line then []
  else
    let next_line := content_lines.getD (line_index + 1) []
    let next_next_line := content_lines.getD (line_index + 2) []
    if (pyStrip next_line).isEmpty && startsWith (pyStrip next_next_line) "![".toList then
      let last_char := (pyRstrip line).getLast?
      if H014_MARKERS.any (fun m => containsSub line m.toList) then []
      else if startsWith (pyStrip line) "<".toList then []
      else
        let stripped := pyStrip line
        if 2 ≤ stripped.length && startsWith stripped "_".toList
            && endsWith stripped "_".toList then []
        else if startsWith stripped "- ".toList then []
        else if last_char ≠ some ':' then
          [⟨"H014",
            ruleText "H014" ++ ": last char is \"" ++
              (match last_char with | some c => String.mk [c] | none => "") ++ "\"",
            line_num, (pyRstrip line).length⟩]
        else []
    else []

/-- `MarkdownChecker._check_incorrect_words` (H006). -/
def check_incorrect_words (line clean_line : Str) (line_num : Nat) : List Diag :=
  INCORRECT_WORDS.flatMap (fun p =>
    if (findWordBoundaryMatch clean_line p.1.toList).isSome then
      let col := match findWordBoundaryMatch line p.1.toList with
        | some i => i + 1
        | none => 1
      [⟨"H006",
        ruleText "H006" ++ ": \"" ++ p.1 ++ "\" should be \"" ++ p.2 ++ "\"",
        line_num, col⟩]
    else [])

/-- `MarkdownChecker._check_double_spaces` (H009). -/
def check_double_spaces (line : Str) (line_num : Nat)
    (content_lines : List Str) (line_index : Nat) : List Diag :=
  if !containsSub line "  ".toList then []
  else if startsWithAny line ["  ".toList, "  *".toList, "  -".toList] then []
  else if line_index > 0 &&
      (let prev_line := content_lines.getD (line_index - 1) []
       startsWith (pyStrip prev_line) "*".toList || startsWith (pyStrip prev_line) "-".toList) then
    []
  else if startsWith (pyStrip line) "|".toList then []
  else
    [⟨"H009", ruleText "H009", line_num, (findSub line "  ".toList).getD 0 + 1⟩]

/-- `MarkdownChecker._is_table_cell_only_dash` cell walk. -/
def table_cell_scan : List Str → Nat → Nat → Bool
  | [], _, _ => false
  | part :: rest, start, pos =>
      if start ≤ pos && pos < start + part.length then pyStrip part = "-".toList
      else table_cell_scan rest (start + part.length + 1) pos

/-- `MarkdownChecker._is_table_cell_only_dash`. -/
def is_table_cell_only_dash (line : Str) (pos : Nat) : Bool :=
  let parts := pySplit line "|".toList
  if parts.length < 2 then false
  else table_cell_scan parts 0 pos

/-- First loop of `_check_dash_usage`: `" - "` in a prose segment. -/
def dash_space_hyphen (line : Str) (line_num : Nat) :
    List (Str × Bool) → Nat → List Diag
  | [], _ => []
  | (seg, inCode) :: rest, offset =>
      if !inCode && containsSub seg " - ".toList
          && !startsWith (pyStrip seg) "-".toList then
        if containsSub line "|".toList
            && is_table_cell_only_dash line (offset + (findSub seg " - ".toList).getD 0) then
          dash_space_hyphen line line_num rest (offset + seg.length)
        else
          [⟨"H016", ruleText "H016" ++ ": \" - \" should be \" — \" (em dash)",
            line_num, offset + (findSub seg " - ".toList).getD 0 + 1⟩]
      else dash_space_hyphen line line_num rest (offset + seg.length)

/-- Second loop of `_check_dash_usage`: Unicode minus `" − "` and `" -- "`. -/
def dash_minus_double (line_num : Nat) : List (Str × Bool) → Nat → List Diag
  | [], _ => []
  | (seg, inCode) :: rest, offset =>
      if inCode then dash_minus_double line_num rest (offset + seg.length)
      else if containsSub seg " − ".toList then
        [⟨"H016", ruleText "H016" ++ ": \" − \" (minus) should be \" — \" (em dash)",
          line_num, offset + (findSub seg " − ".toList).getD 0 + 1⟩]
      else if containsSub seg " -- ".toList then
        [⟨"H016", ruleText "H016" ++ ": \" -- \" should be \" — \" (em dash)",
          line_num, offset + (findSub seg " -- ".toList).getD 0 + 1⟩]
      else dash_minus_double line_num rest (offset + seg.length)

/-- `MarkdownChecker._check_dash_usage` (H016). -/
def check_dash_usage (line clean_line : Str) (line_num : Nat) : List Diag :=
  dash_space_hyphen line line_num (identifyCodeBlocksLine line) 0 ++
  dash_minus_double line_num (identifyCodeBlocksLine line) 0 ++
  (if containsSub clean_line "–".toList then
    let line_matches := allIdxOf line '–'
    (allIdxOf clean_line '–').enum.flatMap (fun q =>
      let i := q.1
      let pos := q.2
      let beforeDigit := pos > 0 && pyIsDigit (clean_line.getD (pos - 1) ' ')
      let afterDigit := pos + 1 < clean_line.length && pyIsDigit (clean_line.getD (pos + 1) ' ')
      if !(beforeDigit && afterDigit) then
        [⟨"H016", ruleText "H016" ++ ": en dash \"–\" should only be between digits",
          line_num, line_matches.getD i pos + 1⟩]
      else [])
  else []) ++
  (if containsSub clean_line "—".toList then
    let line_matches := allIdxOf line '—'
    (allIdxOf clean_line '—').enum.flatMap (fun q =>
      let i := q.1
      let pos := q.2
      let before := if pos > 0 then clean_line.getD (pos - 1) ' ' else ' '
      let after := if pos + 1 < clean_line.length then clean_line.getD (pos + 1) ' ' else ' '
      let col_pos := line_matches.getD i pos
      if pos = 0 then
        if after ≠ ' ' then
          [⟨"H016", ruleText "H016" ++ ": em dash \"—\" at start should be followed by space",
            line_num, col_pos + 1⟩]
        else []
      else if !(before = ' ' && after = ' ') then
        [⟨"H016", ruleText "H016" ++ ": em dash \"—\" should have spaces around it",
          line_num, col_pos + 1⟩]
      else [])
  else [])

/-- Literal patterns of `_check_space_before_punctuation`. -/
def SPACE_PUNCT_PATTERNS : List String := [" .", " ,", " ;", " :", " ?"]

/-- Exceptions of the `" !"` case of `_check_space_before_punctuation`. -/
def EXCL_EXCEPTIONS : List String := [" !details", " !note", " !important", " !warning"]

/-- `MarkdownChecker._check_space_before_punctuation` (H015). -/
def check_space_before_punctuation (line : Str) (line_num : Nat) : List Diag :=
  let code_ranges := code_ranges_of line
  (SPACE_PUNCT_PATTERNS.flatMap (fun pat =>
    match findSub line pat.toList with
    | some m =>
        if inRanges code_ranges m then []
        else
          [⟨"H015", ruleText "H015" ++ ": found \"" ++ pat ++ "\"", line_num, m + 1⟩]
    | none => [])) ++
  (if containsSub line " !".toList then
    let pos_found := (findSub line " !".toList).getD 0
    if inRanges code_ranges pos_found then []
    else if !(EXCL_EXCEPTIONS.any (fun e => startsWith (line.drop pos_found) e.toList))
        && !startsWith (pyStrip line) "!".toList then
      [⟨"H015", ruleText "H015" ++ ": found \" !\"", line_num, pos_found + 1⟩]
    else []
  else [])

/-- The `incorrect_quotes` table of `_check_quotes`. -/
def INCORRECT_QUOTES : List (String × String) := [
  ("\"", "straight double quote \""),
  ("“", "curly quote “"),
  ("”", "curly quote ”"),
  ("« ", "space after «"),
  (" »", "space before »")]

/-- `MarkdownChecker._check_quotes` (H018). -/
def check_quotes (line clean_line : Str) (line_num : Nat) : List Diag :=
  INCORRECT_QUOTES.flatMap (fun q =>
    if containsSub clean_line q.1.toList then
      let pos :=
        if containsSub line q.1.toList then (findSub line q.1.toList).getD 0
        else (findSub clean_line q.1.toList).getD 0
      [⟨"H018", ruleText "H018" ++ ": found " ++ q.2, line_num, pos + 1⟩]
    else [])

/-- Tag starts exempt from H019. -/
def H019_ALLOWED : List String := [
  "<details", "<details>", "</details>", "<summary", "<summary>", "</summary>"]

/-- `MarkdownChecker._check_html_tags` (H019). -/
def check_html_tags (line : Str) (line_num : Nat) : List Diag :=
  let line_lower := pyLower line
  FORBIDDEN_HTML_TAGS.flatMap (fun tag =>
    if containsSub line_lower (pyLower tag.toList) then
      let pos := (findSub line_lower (pyLower tag.toList)).getD 0
      let rest := line_lower.drop pos
      if startsWithAny rest (H019_ALLOWED.map String.toList) then []
      else
        [⟨"H019", ruleText "H019" ++ ": found \"" ++ tag ++ "\"", line_num, pos + 1⟩]
    else [])

/-- `MarkdownChecker._check_image_caption` (H020). -/
def check_image_caption (line : Str) (line_num : Nat) : List Diag :=
  if !startsWith (pyStrip line) "![".toList then []
  else
    let stripped := pyStrip line
    let afterBang := stripped.drop 2
    let caption := afterBang.takeWhile (fun c => c ≠ ']')
    if (afterBang.drop caption.length).head? = some ']' then
      match caption.head? with
      | some c0 =>
          if pyIsAlpha c0 && pyIsLower c0 then
            [⟨"H020", ruleText "H020" ++ ": caption starts with \"" ++ String.mk [c0] ++ "\"",
              line_num, 3⟩]
          else []
      | none => []
    else []

/-- `MarkdownChecker._check_image_not_at_line_start` (H026). -/
def check_image_not_at_line_start (line : Str) (line_num : Nat) : List Diag :=
  let trimmed := pyStrip line
  if !containsSub trimmed "![".toList || findSub trimmed "![".toList = some 0 then []
  else
    [⟨"H026", ruleText "H026", line_num, ((findSub line "![".toList).map (· + 1)).getD 0⟩]

/-- Matches of `[.!?]\s+([a-zа-яё])` in scan order: each item is
`(start index, matched text, whitespace length, letter)`.  The letter
class is disjoint from whitespace, so the regex backtracking collapses
to a maximal-run scan. -/
def finditer_lower_aux : Nat → Str → Nat → List (Nat × Str × Nat × Char)
  | 0, _, _ => []
  | fuel + 1, s, idx =>
      match s with
      | [] => []
      | c :: rest =>
          if c = '.' || c = '!' || c = '?' then
            let ws := rest.takeWhile pySpace
            match (rest.drop ws.length).head? with
            | some l =>
                if 1 ≤ ws.length && pyIsLower l then
                  (idx, c :: (ws ++ [l]), ws.length, l)
                    :: finditer_lower_aux fuel (rest.drop (ws.length + 1)) (idx + 1 + ws.length + 1)
                else finditer_lower_aux fuel rest (idx + 1)
            | none => finditer_lower_aux fuel rest (idx + 1)
          else finditer_lower_aux fuel rest (idx + 1)

/-- Exceptions of `_check_lowercase_after_punctuation`. -/
def LOWERCASE_EXCEPTIONS : List String := ["e.g.", "i.e.", "т. е", "т. д", "т. ч", "т. п"]

/-- `MarkdownChecker._check_lowercase_after_punctuation` (H021). -/
def check_lowercase_after_punctuation (line clean_line : Str) (line_num : Nat) : List Diag :=
  (finditer_lower_aux (clean_line.length + 1) clean_line 0).flatMap (fun m =>
    let pos := m.1
    let group0 := m.2.1
    let wsLen := m.2.2.1
    let letter := m.2.2.2
    let context_before := (clean_line.take (pos + 1)).drop (pos - 4)
    if LOWERCASE_EXCEPTIONS.any (fun e => containsSub context_before e.toList) then []
    else
      let col := match findSub line group0 with
        | some i => i + (1 + wsLen) + 1
        | none => (pos + 1 + wsLen) + 1
      [⟨"H021",
        ruleText "H021" ++ ": found lowercase \"" ++ String.mk [letter] ++ "\" after punctuation",
        line_num, col⟩])

/-- `at_sentence_start` of `_check_russian_polite_pronouns`:
the prefix is blank, or its last non-whitespace character is `.`, `!`
or `?` (the regex `[.!?]\s*$`). -/
def at_sentence_start (line : Str) (match_start : Nat) : Bool :=
  let text_before := line.take match_start
  if (pyStrip text_before).isEmpty then true
  else
    match (pyRstrip text_before).getLast? with
    | some c => c = '.' || c = '!' || c = '?'
    | none => false

/-- Word loop of `_check_russian_polite_pronouns`: the first pronoun
with a match that is neither inside inline code nor at a sentence start
yields the single diagnostic of the line. -/
def pronoun_scan (line : Str) (code_ranges : List (Nat × Nat)) (line_num : Nat) :
    List String → List Diag
  | [] => []
  | w :: ws =>
      match ((wordMatchesAll line w.toList).filter
          (fun i => !inRanges code_ranges i && !at_sentence_start line i)).head? with
      | some i =>
          [⟨"H024",
            ruleText "H024" ++ ": use lowercase \"" ++ String.mk (pyLower w.toList) ++
              "\" when addressing reader",
            line_num, i + 1⟩]
      | none => pronoun_scan line code_ranges line_num ws

/-- `MarkdownChecker._check_russian_polite_pronouns` (H024). -/
def check_russian_polite_pronouns (line : Str) (line_num : Nat) : List Diag :=
  pronoun_scan line (code_ranges_of line) line_num RUSSIAN_POLITE_PRONOUNS_CAPITALIZED

/-- Per-segment scan of `_check_x_instead_of_times`. -/
def x_in_segment (seg : Str) (offset : Nat) (line_num : Nat) : List Diag :=
  (List.range seg.length).filterMap (fun pos =>
    let char := seg.getD pos ' '
    if !(char = 'x' || char.toNat = 0x0445) then none
    else if pos = 0 || pos + 1 ≥ seg.length then none
    else
      let before := seg.getD (pos - 1) ' '
      let after := seg.getD (pos + 1) ' '
      if !(before = ' ' || before = '\t') && !pyIsDigit before then none
      else if !(after = ' ' || after = '\t') && !pyIsDigit after then none
      else if char = 'x' then
        let part := (seg.drop pos).take 3
        if before = ' ' && (part = "x86".toList || part = "x64".toList) then none
        else if pyIsDigit before && (after = ' ' || after = '\t') then none
        else some ⟨"H025", ruleText "H025" ++ ": \"x\" should be \"×\"",
          line_num, offset + pos + 1⟩
      else some ⟨"H025", ruleText "H025" ++ ": \"х\" should be \"×\"",
        line_num, offset + pos + 1⟩)

/-- Segment fold of `_check_x_instead_of_times` (H025). -/
def x_segments (line_num : Nat) : List (Str × Bool) → Nat → List Diag
  | [], _ => []
  | (seg, inCode) :: rest, offset =>
      (if inCode then [] else x_in_segment seg offset line_num) ++
        x_segments line_num rest (offset + seg.length)

/-- `MarkdownChecker._check_x_instead_of_times` (H025). -/
def check_x_instead_of_times (line : Str) (line_num : Nat) : List Diag :=
  x_segments line_num (identifyCodeBlocksLine line) 0

/-- `MarkdownChecker._check_horizontal_bar` (H028). -/
def check_horizontal_bar (line clean_line : Str) (line_num : Nat) : List Diag :=
  if !containsSub clean_line "―".toList then []
  else
    [⟨"H028", ruleText "H028", line_num, ((findSub line "―".toList).map (· + 1)).getD 0⟩]

/-- `MarkdownChecker._check_numero_space` (H029): the `while` loop visits
every occurrence of `№`. -/
def numero_scan (line_num : Nat) : Str → Nat → List Diag
  | [], _ => []
  | c :: rest, idx =>
      (if c = '№' then
        match rest.head? with
        | some nx => if nx ≠ ' ' then [⟨"H029", ruleText "H029", line_num, idx + 1⟩] else []
        | none => []
      else []) ++ numero_scan line_num rest (idx + 1)

/-- `MarkdownChecker._check_numero_space` (H029). -/
def check_numero_space (line : Str) (line_num : Nat) : List Diag :=
  numero_scan line_num line 0

/-- `MarkdownChecker._check_question_mark_period` (H030): first prose
segment containing `?.` yields the single diagnostic. -/
def qmark_scan (line_num : Nat) : List (Str × Bool) → Nat → List Diag
  | [], _ => []
  | (seg, inCode) :: rest, offset =>
      if inCode then qmark_scan line_num rest (offset + seg.length)
      else if containsSub seg "?.".toList then
        [⟨"H030", ruleText "H030", line_num,
          offset + (findSub seg "?.".toList).getD 0 + 1⟩]
      else qmark_scan line_num rest (offset + seg.length)

/-- `MarkdownChecker._check_question_mark_period` (H030). -/
def check_question_mark_period (line : Str) (line_num : Nat) : List Diag :=
  qmark_scan line_num (identifyCodeBlocksLine line) 0

/-- `MarkdownChecker._check_file_level_rules` (H011, H012). -/
def check_file_level_rules (all_lines : List Str) (rules : List String)
    (content : Str) : List Diag :=
  (if rules.contains "H011" && !all_lines.isEmpty && !endsWith content "\n".toList then
    [⟨"H011", ruleText "H011", all_lines.length, 0⟩]
  else []) ++
  (if rules.contains "H012" then
    (List.range (all_lines.length - 1)).filterMap (fun i =>
      if (pyStrip (all_lines.getD i [])).isEmpty
          && (pyStrip (all_lines.getD (i + 1) [])).isEmpty
          && i > 0 && i + 1 < all_lines.length - 1 then
        some ⟨"H012", ruleText "H012", i + 1, 0⟩
      else none)
  else [])

/-- `MarkdownChecker._check_filename_rules` (H001, H002). -/
def check_filename_rules (f : MDFile) (rules : List String) : List Diag :=
  (if rules.contains "H001" && containsSub f.name " ".toList then
    [⟨"H001", ruleText "H001", 0, 0⟩]
  else []) ++
  (if rules.contains "H002" && containsSub f.pathStr " ".toList then
    [⟨"H002", ruleText "H002", 0, 0⟩]
  else [])

/-- `MarkdownChecker._inside_details_block`: running (possibly negative)
nesting count of `<details>` over the scanned prefix. -/
def inside_details_block (content_lines : List Str) (line_index : Nat) : Bool :=
  ((content_lines.take (line_index + 1)).foldl (fun (nest : Int) l =>
    let line_lower := pyLower (pyStrip l)
    (if containsSub line_lower "<details".toList then nest + 1 else nest) -
      (if containsSub line_lower "</details>".toList then 1 else 0)) 0) > 0

/-- `MarkdownChecker._is_paragraph_pair_requiring_empty_line`. -/
def is_paragraph_pair_requiring_empty_line (line_i line_i_next : Str) : Bool :=
  let stripped_i := pyStrip line_i
  if stripped_i.isEmpty then false
  else
    let stripped_next := pyLower (pyStrip line_i_next)
    if startsWithAny (pyLower stripped_i)
        (["<details", "</details>", "<summary", "</summary>"].map String.toList) then false
    else if startsWithAny stripped_next
        (["<details", "</details>", "<summary", "</summary>"].map String.toList) then false
    else
      let first_char := stripped_i.headD ' '
      if startsWith stripped_i "$$".toList then false
      else if startsWithAny stripped_i (["* ", "- ", "  * ", "  - "].map String.toList) then false
      else if startsWithAny (pyStrip line_i_next) (["![", "$$"].map String.toList) then false
      else !(first_char = '|' || first_char = '*' || first_char = '>' || pyIsDigit first_char)

/-- `MarkdownChecker._check_empty_line_between_paragraphs` (H023). -/
def check_empty_line_between_paragraphs (content_lines : List Str)
    (code_block_info : List (Str × Bool)) (yaml_end_line : Nat) : List Diag :=
  (List.range (content_lines.length - 1)).filterMap (fun i =>
    let line_i := content_lines.getD i []
    let line_i_next := content_lines.getD (i + 1) []
    if (pyStrip line_i).isEmpty || (pyStrip line_i_next).isEmpty then none
    else
      let is_code_i := (code_block_info.getD i (line_i, false)).2
      let is_code_next := (code_block_info.getD (i + 1) (line_i_next, false)).2
      if is_code_i || is_code_next then none
      else if inside_details_block content_lines i then none
      else if !is_paragraph_pair_requiring_empty_line line_i line_i_next then none
      else
        some ⟨"H023", ruleText "H023" ++ ": add empty line between paragraphs",
          (yaml_end_line - 1) + i + 1, 0⟩)

/-- `MarkdownChecker._check_non_code_line_rules` — the per-line rules
run only on lines outside fenced code. -/
def check_non_code_line_rules (line : Str) (line_num : Nat)
    (content_lines : List Str) (line_index : Nat)
    (code_block_info : List (Str × Bool)) (rules : List String)
    (yaml_end_line : Nat) (lang : Str) : List Diag :=
  let clean_line := clean_line_of line
  (if rules.contains "H006" then check_incorrect_words line clean_line line_num else []) ++
  (if rules.contains "H009" then
    check_double_spaces line line_num content_lines line_index else []) ++
  (if rules.contains "H013" then
    check_colon_before_code line line_num line_index code_block_info else []) ++
  (if rules.contains "H014" then
    check_colon_before_image line line_num content_lines line_index else []) ++
  (if rules.contains "H015" then check_space_before_punctuation line line_num else []) ++
  (if rules.contains "H016" && line_num ≥ yaml_end_line then
    check_dash_usage line clean_line line_num else []) ++
  (if rules.contains "H017" && containsSub clean_line "...".toList then
    [⟨"H017", ruleText "H017" ++ ": \"...\" should be \"…\"", line_num,
      if containsSub line "...".toList then (findSub line "...".toList).getD 0 + 1
      else (findSub clean_line "...".toList).getD 0 + 1⟩]
  else []) ++
  (if rules.contains "H017" && endsWith (pyRstrip clean_line) "…".toList then
    [⟨"H017", ruleText "H017" ++ ": ellipsis \"…\" at end of line", line_num,
      ((rfindChar (pyRstrip line) '…').map (· + 1)).getD 0⟩]
  else []) ++
  (if rules.contains "H018" then check_quotes line clean_line line_num else []) ++
  (if rules.contains "H019" then check_html_tags line line_num else []) ++
  (if rules.contains "H020" then check_image_caption line line_num else []) ++
  (if rules.contains "H021" then
    check_lowercase_after_punctuation line clean_line line_num else []) ++
  (if rules.contains "H024" && lang = "ru".toList then
    check_russian_polite_pronouns line line_num else []) ++
  (if rules.contains "H025" then check_x_instead_of_times line line_num else []) ++
  (if rules.contains "H026" then check_image_not_at_line_start line line_num else []) ++
  (if rules.contains "H028" then check_horizontal_bar line clean_line line_num else []) ++
  (if rules.contains "H029" then check_numero_space line line_num else []) ++
  (if rules.contains "H030" then check_question_mark_period line line_num else [])

/-- `MarkdownChecker._check_content_rules`. -/
def check_content_rules (all_lines : List Str) (yaml_end_line : Nat)
    (rules : List String) (content : Str) (lang : Str) : List Diag :=
  let content_lines := if yaml_end_line > 1 then all_lines.drop (yaml_end_line - 1) else all_lines
  let code_block_info := identifyCodeBlocks content_lines
  check_file_level_rules all_lines rules content ++
  (if rules.contains "H023" then
    check_empty_line_between_paragraphs content_lines code_block_info yaml_end_line
  else []) ++
  code_block_info.enum.flatMap (fun p =>
    let i := p.1
    let line := p.2.1
    let is_code_block := p.2.2
    let actual_line_num := (yaml_end_line - 1) + i + 1
    check_all_lines_rules line actual_line_num rules ++
    (if !is_code_block then
      check_non_code_line_rules line actual_line_num content_lines i code_block_info
        rules yaml_end_line lang
    else []))

/-- `MarkdownChecker._check_code_rules` (H007). -/
def check_code_rules (all_lines : List Str) (yaml_end_line : Nat)
    (rules : List String) : List Diag :=
  let content_lines := if yaml_end_line > 1 then all_lines.drop (yaml_end_line - 1) else all_lines
  let code_block_info := identifyCodeBlocks content_lines
  code_block_info.enum.flatMap (fun p =>
    let i := p.1
    let line := p.2.1
    let actual_line_num := (yaml_end_line - 1) + i + 1
    if rules.contains "H007" && startsWith (pyStrip line) "```".toList then
      let run := backtickRun line
      if 3 ≤ run then
        let language := (line.drop run).takeWhile isWordChar
        match INCORRECT_LANGUAGES.lookup (String.mk language) with
        | some correct =>
            if !language.isEmpty then
              [⟨"H007",
                ruleText "H007" ++ ": \"" ++ String.mk language ++ "\" should be \"" ++
                  correct ++ "\"",
                actual_line_num, run + 1⟩]
            else []
        | none => []
      else []
    else [])

/-- `MarkdownChecker._find_yaml_block_end_line` scan: first line number
(1-based, starting the count at `num`) whose trimmed text is `---`. -/
def find_dashes_line : List Str → Nat → Option Nat
  | [], _ => none
  | l :: rest, num =>
      if pyStrip l = "---".toList then some num else find_dashes_line rest (num + 1)

/-- `MarkdownChecker._find_yaml_block_end_line`. -/
def find_yaml_block_end_line (all_lines : List Str) : Nat :=
  match all_lines with
  | [] => 1
  | h :: t =>
      if pyStrip h ≠ "---".toList then 1
      else (find_dashes_line t 2).getD all_lines.length

/-- `MarkdownChecker._find_yaml_end_line` (returns the line after the
closing `---`). -/
def find_yaml_end_line (all_lines : List Str) : Nat :=
  match all_lines with
  | [] => 1
  | h :: t =>
      if pyStrip h ≠ "---".toList then 1
      else ((find_dashes_line t 2).map (· + 1)).getD (all_lines.length + 1)

/-- Scan of `_find_yaml_field_line_in_original`: stop at the closing
`---` (returning 2) or at the first line starting with `field:`. -/
def find_field_line : List Str → Str → Nat → Nat
  | [], _, _ => 2
  | l :: rest, field, num =>
      if pyStrip l = "---".toList then 2
      else if startsWith (pyStrip l) (field ++ ":".toList) then num
      else find_field_line rest field (num + 1)

/-- `MarkdownChecker._find_yaml_field_line_in_original`. -/
def find_yaml_field_line_in_original (all_lines : List Str) (field : Str) : Nat :=
  match all_lines with
  | [] => 1
  | h :: t =>
      if pyStrip h ≠ "---".toList then 1
      else find_field_line t field 2

/-- Scan of the regex `f"{field}:\s*(.+)"`: at each occurrence of
`field:`, greedy `\s*` then a non-empty `(.+)`; when only whitespace
follows, the group backtracks to the final whitespace character. -/
def field_value_scan (field : Str) : Str → Nat → Option Nat
  | [], _ => none
  | c :: rest, idx =>
      if (field ++ ":".toList).isPrefixOf (c :: rest) then
        let after := (c :: rest).drop (field.length + 1)
        let ws := after.takeWhile pySpace
        if (after.drop ws.length) ≠ [] then
          some (idx + field.length + 1 + ws.length)
        else if 1 ≤ ws.length then
          some (idx + field.length + 1 + (ws.length - 1))
        else
          field_value_scan field rest (idx + 1)
      else field_value_scan field rest (idx + 1)

/-- `MarkdownChecker._find_yaml_field_column`. -/
def find_yaml_field_column (all_lines : List Str) (line_num : Nat) (field : Str) : Nat :=
  if line_num ≤ all_lines.length then
    let line := all_lines.getD (line_num - 1) []
    match field_value_scan field line 0 with
    | some start1 => start1 + 1
    | none => 1
  else 1

/-- Truthiness of the loaded YAML mapping (`not data`). -/
def yamlTruthy : Option (List (Str × Str)) → Bool
  | none => false
  | some l => !l.isEmpty

/-- The two `.replace` calls applied before `yaml.safe_load`. -/
def yaml_replaced (yaml_content : Str) : Str :=
  replaceAll (replaceAll yaml_content "---\n".toList []) "\n---".toList []

/-- `yaml.safe_load(yaml_content.replace("---\n", "").replace("\n---", ""))
if yaml_content else None`, shared by `_check_all_rules` and
`_check_yaml_rules`. -/
def parse_yaml_data (yaml_content : Str) : Except String (Option (List (Str × Str))) :=
  if yaml_content.isEmpty then .ok none
  else yamlSafeLoad (yaml_replaced yaml_content)

/-- The `lang` value read in `_check_all_rules`:
`(yaml_data or {}).get("lang") or ""` with every parse failure giving `""`. -/
def lang_of (yaml_content : Str) : Str :=
  match parse_yaml_data yaml_content with
  | .error _ => []
  | .ok none => []
  | .ok (some d) => (d.lookup "lang".toList).getD []

/-- `MarkdownChecker._check_yaml_rules` (H000/H003/H004/H005). -/
def check_yaml_rules (yaml_content : Str) (all_lines : List Str)
    (rules : List String) : List Diag :=
  match parse_yaml_data yaml_content with
  | .error e => [⟨"H000", "YAML parsing error: " ++ e, 1, 0⟩]
  | .ok data =>
      if !yamlTruthy data && rules.contains "H003" then
        [⟨"H003", ruleText "H003", 1, 0⟩]
      else if yamlTruthy data then
        if rules.contains "H004" && (((data.getD []).lookup "lang".toList).getD []).isEmpty then
          [⟨"H004", ruleText "H004", find_yaml_block_end_line all_lines, 0⟩]
        else if rules.contains "H005"
            && !(((data.getD []).lookup "lang".toList).getD []).isEmpty
            && ((data.getD []).lookup "lang".toList).getD [] ≠ "en".toList
            && ((data.getD []).lookup "lang".toList).getD [] ≠ "ru".toList then
          let line_num := find_yaml_field_line_in_original all_lines "lang".toList
          [⟨"H005", ruleText "H005", line_num,
            find_yaml_field_column all_lines line_num "lang".toList⟩]
        else []
      else []

/-- `MarkdownChecker._check_all_rules`: filename rules run before the
`try` block; a read failure yields the single `H000` exception
diagnostic. -/
def check_all_rules (f : MDFile) (rules : List String) : List Diag :=
  check_filename_rules f rules ++
  (match f.content with
  | .error e => [⟨"H000", "Exception error: " ++ e, 0, 0⟩]
  | .ok content =>
      let all_lines := pySplitlines content
      let yaml_end_line := find_yaml_end_line all_lines
      let yaml_part := (split_yaml_content content).1
      let lang := lang_of yaml_part
      check_yaml_rules yaml_part all_lines rules ++
      check_content_rules all_lines yaml_end_line rules content lang ++
      check_code_rules all_lines yaml_end_line rules)

/-- `MarkdownChecker._determine_active_rules`: `select ∩ known`, then
minus `exclude`; rule sets are represented by their membership. -/
def determine_active_rules (select exclude_rules : Option (List String)) : List String :=
  let active := match select with
    | some s => all_rules.filter (fun r => s.contains r)
    | none => all_rules
  match exclude_rules with
  | some e => active.filter (fun r => !e.contains r)
  | none => active

/-- `MarkdownChecker.check` at the structured-diagnostic level. -/
def checkDiags (f : MDFile) (select exclude_rules : Option (List String)) : List Diag :=
  check_all_rules f (determine_active_rules select exclude_rules)

/-- `MarkdownChecker.check`: the list of formatted diagnostic strings. -/
def check (f : MDFile) (select exclude_rules : Option (List String)) : List String :=
  (checkDiags f select exclude_rules).map (format_error f.relPath)

end MarkdownChecker

/-- A directory tree as the walker sees it: file entries carry the
`MDFile` data the checker would read at that path; `iterdir` yields the
children in the stored (operating-system) order. -/
inductive FSEntry where
  | file (name : Str) (data : MDFile)
  | dir (name : Str) (children : List FSEntry)
  deriving Repr

/-- Name of an entry (`Path.name`). -/
def FSEntry.entryName : FSEntry → Str
  | .file n _ => n
  | .dir n _ => n

/-- `harrix_pylib.funcs_file` base ignore patterns. -/
def base_patterns : List String := [
  "__pycache__", ".cache", ".DS_Store", ".git", ".idea", ".npm",
  ".pytest_cache", ".venv", ".vs", ".vscode", "build", "config", "dist",
  "node_modules", "tests", "Thumbs.db", "venv"]

/-- `harrix_pylib.funcs_file.should_ignore_path` with the default
`is_ignore_hidden=True`; only `path.name` is inspected. -/
def should_ignore_path (name : Str) (additional_patterns : Option (List String)) : Bool :=
  let patterns := base_patterns ++ additional_patterns.getD []
  if startsWith name ".".toList then true
  else patterns.any (fun p => p.toList = name)

/-- `pathlib.PurePath.suffix`: the extension from the last dot of the
final component, empty for a leading or trailing dot. -/
def path_suffix (name : Str) : Str :=
  match rfindChar name '.' with
  | some i => if 0 < i && i + 1 < name.length then name.drop i else []
  | none => []

mutual

/-- `MarkdownChecker.find_markdown_files`: files with suffix `.md` or
`.markdown` (case-insensitive), recursing into directories that
`should_ignore_path` does not reject, children in `iterdir` order
(`find_markdown_children` is the loop over `directory.iterdir()`). -/
def find_markdown_files (e : FSEntry) (additional_patterns : Option (List String)) :
    List MDFile :=
  match e with
  | .file _ _ => []
  | .dir name children =>
      if should_ignore_path name additional_patterns then []
      else find_markdown_children children additional_patterns

/-- The `for item in directory.iterdir()` loop of `find_markdown_files`. -/
def find_markdown_children (l : List FSEntry) (additional_patterns : Option (List String)) :
    List MDFile :=
  match l with
  | [] => []
  | .file fname data :: rest =>
      (if pyLower (path_suffix fname) = ".md".toList
          || pyLower (path_suffix fname) = ".markdown".toList then [data]
      else []) ++ find_markdown_children rest additional_patterns
  | .dir dname dchildren :: rest =>
      (if !should_ignore_path dname additional_patterns then
        find_markdown_files (.dir dname dchildren) additional_patterns
      else []) ++ find_markdown_children rest additional_patterns

end

/-- `MarkdownChecker.check_directory`: an insertion-ordered map from
path string to non-empty diagnostic lists. -/
def MarkdownChecker.check_directory (e : FSEntry)
    (select exclude_rules : Option (List String))
    (additional_ignore_patterns : Option (List String)) : List (String × List String) :=
  (find_markdown_files e additional_ignore_patterns).foldl (fun results md =>
    let errors := MarkdownChecker.check md select exclude_rules
    if !errors.isEmpty then results ++ [(String.mk md.pathStr, errors)] else results) []

namespace PythonChecker

/-- The rule registry `PythonChecker.RULES`. -/
def RULES : List (String × String) := [
  ("HP001", "Presence of Russian letters in the code"),
  ("HP002", "Old-style docstring formatting (non-Markdown style)")]

/-- Title text of a rule code. -/
def ruleText (c : String) : String := (RULES.lookup c).getD ""

/-- `self.all_rules`. -/
def all_rules : List String := RULES.map (fun p => p.1)

/-- Character class `[A-Z0-9,\s]` under `re.IGNORECASE`. -/
def ignore_class_char (c : Char) : Bool :=
  ('A' ≤ c && c ≤ 'Z') || ('a' ≤ c && c ≤ 'z') || c.isDigit || c = ',' || pySpace c

/-- Attempt the pattern `#\s*<directive>:\s*([A-Z0-9,\s]+)`
(case-insensitive) at the start of `s` (whose head is `#`); returns the
captured group.  When only whitespace follows the colon the greedy
`\s*` backtracks one character so the group captures it. -/
def match_ignore_at (s : Str) (directive : Str) : Option Str :=
  match s with
  | [] => none
  | _ :: after =>
      let ws := after.takeWhile pySpace
      let t := after.drop ws.length
      if (directive ++ ":".toList).isPrefixOf (pyLower t) then
        let rest := t.drop (directive.length + 1)
        let ws2 := rest.takeWhile pySpace
        let grp := (rest.drop ws2.length).takeWhile ignore_class_char
        if !grp.isEmpty then some (ws2 ++ grp)
        else if !ws2.isEmpty then some [ws2.getLastD ' ']
        else none
      else none

/-- `re.search` of the ignore pattern: leftmost `#` where the rest of
the pattern matches. -/
def search_ignore (s : Str) (directive : Str) : Option Str :=
  match s with
  | [] => none
  | c :: rest =>
      if c = '#' then
        match match_ignore_at (c :: rest) directive with
        | some g => some g
        | none => search_ignore rest directive
      else search_ignore rest directive

/-- `PythonChecker._parse_rules_string`: comma-split, strip, upper. -/
def parse_rules_string (rules_str : Str) : List Str :=
  (pySplit rules_str ",".toList).filterMap (fun r =>
    if (pyStrip r).isEmpty then none else some (pyUpper (pyStrip r)))

/-- `PythonChecker._should_ignore_line`. -/
def should_ignore_line (line : Str) (rule_code : String) : Bool :=
  match search_ignore line "ignore".toList with
  | none => false
  | some g => (parse_rules_string g).contains rule_code.toList

/-- `PythonChecker._get_file_ignored_rules`. -/
def get_file_ignored_rules (lines : List Str) : List Str :=
  lines.flatMap (fun l =>
    match search_ignore l "file-ignore".toList with
    | some g => parse_rules_string g
    | none => [])

/-- `PythonChecker._has_russian_letters`. -/
def has_russian_letters (text : Str) : Bool := text.any isRussianChar

/-- `PythonChecker._find_russian_letters_position` (1-based; 1 when absent). -/
def find_russian_letters_position (text : Str) : Nat :=
  ((text.findIdx? isRussianChar).map (· + 1)).getD 1

/-- `PythonChecker` docstring section keywords. -/
def docstring_keywords : List String := [
  "Args:", "Returns:", "Yields:", "Raises:", "Attributes:",
  "Note:", "Notes:", "Example:", "Examples:"]

/-- The triple-single-quote delimiter (built character-wise). -/
def tripleSingle : Str := List.replicate 3 (Char.ofNat 39)

/-- `PythonChecker._check_old_style_docstrings` (HP002): scan with the
`in_docstring` toggle; an ignored line leaves the state unchanged. -/
def old_style_scan : List Str → Nat → Bool → List Diag
  | [], _, _ => []
  | line :: rest, line_num, in_doc =>
      if should_ignore_line line "HP002" then old_style_scan rest (line_num + 1) in_doc
      else
        let stripped := pyStrip line
        let td := countSub stripped "\"\"\"".toList
        let ts := countSub stripped tripleSingle
        let in_doc2 :=
          if containsSub stripped "\"\"\"".toList || containsSub stripped tripleSingle then
            if td = 1 || ts = 1 then !in_doc
            else if td = 2 || ts = 2 then false
            else in_doc
          else in_doc
        (if in_doc2 then
          docstring_keywords.flatMap (fun kw =>
            if (stripped = kw.toList || endsWith stripped kw.toList) && !rest.isEmpty then
              let next_line := rest.headD []
              let next_line_stripped := pyStrip next_line
              if !next_line_stripped.isEmpty
                  && !startsWith next_line_stripped "-".toList
                  && !next_line.isEmpty
                  && (next_line.headD ' ' = ' ' || next_line.headD ' ' = '\t') then
                [⟨"HP002", ruleText "HP002", line_num, 0⟩]
              else []
            else [])
        else []) ++ old_style_scan rest (line_num + 1) in_doc2

/-- `PythonChecker._check_old_style_docstrings`. -/
def check_old_style_docstrings (lines : List Str) : List Diag :=
  old_style_scan lines 1 false

/-- `PythonChecker._check_content_rules` (HP001 per line, then HP002). -/
def check_content_rules (lines : List Str) (rules : List String) : List Diag :=
  (lines.enum.flatMap (fun p =>
    let line_num := p.1 + 1
    let line := p.2
    if rules.contains "HP001" && !should_ignore_line line "HP001"
        && has_russian_letters line then
      [⟨"HP001", ruleText "HP001", line_num, find_russian_letters_position line⟩]
    else [])) ++
  (if rules.contains "HP002" then check_old_style_docstrings lines else [])

/-- `PythonChecker._check_all_rules`. -/
def check_all_rules (f : MDFile) (rules : List String) : List Diag :=
  match f.content with
  | .error e => [⟨"P000", "Exception error: " ++ e, 0, 0⟩]
  | .ok content =>
      let lines := pySplitlines content
      let file_ignored := get_file_ignored_rules lines
      let rules_to_check := rules.filter (fun r => !file_ignored.contains r.toList)
      check_content_rules lines rules_to_check

/-- `PythonChecker.check` at the structured-diagnostic level. -/
def checkDiags (f : MDFile) (exclude_rules : Option (List String)) : List Diag :=
  check_all_rules f (all_rules.filter (fun r => !(exclude_rules.getD []).contains r))

/-- `PythonChecker._format_error`: the location format of the checkers
plus the `[to ignore: …]` hint for registered codes. -/
def format_error_py (relPath : String) (d : Diag) : String :=
  relPath ++
    (if d.line > 0 then
      ":" ++ toString d.line ++ (if d.col > 0 then ":" ++ toString d.col else "")
    else "") ++
    ": " ++ d.code ++ " " ++ d.msg ++
    (if (RULES.lookup d.code).isSome then " [to ignore: # ignore: " ++ d.code ++ "]" else "")

/-- `PythonChecker.check`. -/
def check (f : MDFile) (exclude_rules : Option (List String)) : List String :=
  (checkDiags f exclude_rules).map (format_error_py f.relPath)

end PythonChecker

/-- In-code flag of the inline-code partition piece covering position
`p` (0-based) of a line; `false` beyond the end of the line. -/
def spanAt : List (Str × Bool) → Nat → Bool
  | [], _ => false
  | (s, b) :: rest, p => if p < s.length then b else spanAt rest (p - s.length)

/-- Position `p` (0-based) of `line` falls inside an inline-code span
(a span delimited by matching backtick runs). -/
def insideInlineSpan (line : Str) (p : Nat) : Bool :=
  spanAt (identifyCodeBlocksLine line) p

/-- The rule codes checked line-by-line on non-code prose lines. -/
def proseRuleCodes : List String := [
  "H006", "H009", "H013", "H014", "H015", "H016", "H017", "H018", "H019",
  "H020", "H021", "H024", "H025", "H026", "H028", "H029", "H030"]

/-- Classification of the absolute (1-based) line `n` of a file with
text `content`: `true` iff `n` lands in the content region and the
fenced-code mask of `identify_code_blocks` marks its line as code. -/
def line_classified_code (content : Str) (n : Nat) : Bool :=
  let all_lines := pySplitlines content
  let yaml_end_line := MarkdownChecker.find_yaml_end_line all_lines
  let content_lines :=
    if yaml_end_line > 1 then all_lines.drop (yaml_end_line - 1) else all_lines
  if yaml_end_line ≤ n then
    ((identifyCodeBlocks content_lines).getD (n - yaml_end_line) ([], false)).2
  else false

/-- Lexicographic comparison of names (code-point order), used to state
the spec's "deterministic lexicographic order by name". -/
def lexLe : Str → Str → Bool
  | [], _ => true
  | _ :: _, [] => false
  | a :: as, b :: bs => if a < b then true else if b < a then false else lexLe as bs

/-- Spec wording: a file is eligible when its suffix (case-insensitive)
is `.md` or `.markdown`. -/
def eligible_markdown_name (n : Str) : Bool :=
  pyLower (path_suffix n) = ".md".toList || pyLower (path_suffix n) = ".markdown".toList

/-- Spec wording: the walker recurses into sub-directories whose name is
neither on the ignore list (base patterns plus extras) nor starts with
a dot. -/
def spec_ignored_dir (name : Str) (extra : Option (List String)) : Bool :=
  startsWith name ".".toList ||
    (base_patterns ++ extra.getD []).any (fun p => p.toList = name)

/-- Spec wording for the directory walker: `SpecYields t extra d` holds
when file data `d` is reachable from the tree `t` by yielding eligible
Markdown files of a directory and recursing only into sub-directories
that are neither ignored nor dot-prefixed. -/
inductive SpecYields : FSEntry → Option (List String) → MDFile → Prop where
  | here (name : Str) (children : List FSEntry) (extra : Option (List String))
      (fname : Str) (d : MDFile) :
      spec_ignored_dir name extra = false →
      FSEntry.file fname d ∈ children →
      eligible_markdown_name fname = true →
      SpecYields (.dir name children) extra d
  | deeper (name : Str) (children : List FSEntry) (extra : Option (List String))
      (sub : FSEntry) (d : MDFile) :
      spec_ignored_dir name extra = false →
      sub ∈ children →
      spec_ignored_dir sub.entryName extra = false →
      SpecYields sub extra d →
      SpecYields (.dir name children) extra d

/-!
## Theorems

String-formatting helpers, membership inventories of the generators,
and the claim theorems.
-/

theorem strAppend_assoc (a b c : String) : a ++ b ++ c = a ++ (b ++ c) := by
  cases a with | mk la =>
  cases b with | mk lb =>
  cases c with | mk lc =>
  show String.mk (la ++ lb ++ lc) = String.mk (la ++ (lb ++ lc))
  rw [List.append_assoc]

theorem strAppend_empty (a : String) : a ++ "" = a := by
  cases a with | mk la =>
  show String.mk (la ++ []) = String.mk la
  rw [List.append_nil]

theorem format_error_line_only (relPath : String) (code msg : String) (n : Nat) (hn : 0 < n) :
    format_error relPath ⟨code, msg, n, 0⟩ =
      relPath ++ (":" ++ toString n ++ ": " ++ code ++ " " ++ msg) := by
  unfold format_error
  rw [if_pos hn]
  rw [if_neg (by omega : ¬ (0:Nat) > 0)]
  rw [strAppend_empty]
  rw [strAppend_assoc relPath, strAppend_assoc relPath, strAppend_assoc relPath,
    strAppend_assoc relPath]

theorem format_error_no_line (relPath : String) (code msg : String) :
    format_error relPath ⟨code, msg, 0, 0⟩ = relPath ++ (": " ++ code ++ " " ++ msg) := by
  unfold format_error
  rw [if_neg (by omega : ¬ (0:Nat) > 0)]
  rw [strAppend_empty]
  simp only [strAppend_assoc]

theorem format_error_line_col (relPath : String) (code msg : String) (n c : Nat)
    (hn : 0 < n) (hc : 0 < c) :
    format_error relPath ⟨code, msg, n, c⟩ =
      relPath ++ (":" ++ toString n ++ ":" ++ toString c ++ ": " ++ code ++ " " ++ msg) := by
  unfold format_error
  rw [if_pos hn, if_pos hc]
  simp only [strAppend_assoc]

/-- C6: for an empty input file (zero bytes: no YAML block, no content
lines) whose name and path contain no spaces, `check` emits exactly the
single `H003` ("YAML is missing") diagnostic at line 1, and no other
rule fires. -/
theorem C6_empty_file_only_H003 (name pathStr : Str) (relPath : String)
    (h1 : containsSub name " ".toList = false)
    (h2 : containsSub pathStr " ".toList = false) :
    MarkdownChecker.check ⟨name, pathStr, relPath, .ok []⟩ none none =
      [relPath ++ ":1: H003 YAML is missing"] := by
  have h1' : containsSub name [' '] = false := h1
  have h2' : containsSub pathStr [' '] = false := h2
  have hdiags : MarkdownChecker.checkDiags ⟨name, pathStr, relPath, .ok []⟩ none none =
      [⟨"H003", "YAML is missing", 1, 0⟩] := by
    unfold MarkdownChecker.checkDiags MarkdownChecker.check_all_rules
      MarkdownChecker.check_filename_rules
    simp [h1', h2']
    decide
  unfold MarkdownChecker.check
  rw [hdiags]
  simp only [List.map]
  rw [format_error_line_only relPath "H003" "YAML is missing" 1 (by decide)]
  rfl

/-- Witness for C6 at the concrete file `foo.md` under project root. -/
theorem C6_empty_file_only_H003_witness :
    containsSub "foo.md".toList " ".toList = false ∧
    containsSub "/r/foo.md".toList " ".toList = false ∧
    MarkdownChecker.check ⟨"foo.md".toList, "/r/foo.md".toList, "foo.md", .ok []⟩ none none =
      ["foo.md" ++ ":1: H003 YAML is missing"] :=
  ⟨by decide, by decide,
    C6_empty_file_only_H003 "foo.md".toList "/r/foo.md".toList "foo.md"
      (by decide) (by decide)⟩

/-- C7: checking `foo.md` with text `---\nlang: fr\n---\n# Content\n`
under project root `/r` yields exactly the diagnostic
`foo.md:2:7: H005 In YAML, lang is not set to en or ru` — H005 fires
when `lang` parses to a scalar outside en/ru, at the line of the `lang`
key and the 1-based column of its value. -/
theorem C7_invalid_lang_diag :
    MarkdownChecker.check
      ⟨"foo.md".toList, "/r/foo.md".toList, "foo.md",
        .ok "---\nlang: fr\n---\n# Content\n".toList⟩ none none =
      ["foo.md:2:7: H005 In YAML, lang is not set to en or ru"] := by decide

namespace MarkdownChecker

theorem mem_ite_nil {α : Type} {p : Prop} [Decidable p] {l : List α} {a : α}
    (h : a ∈ (if p then l else [])) : p ∧ a ∈ l := by
  split_ifs at h with hp
  · exact ⟨hp, h⟩
  · simp at h

theorem mem_ite_nil_left {α : Type} {p : Prop} [Decidable p] {l : List α} {a : α}
    (h : a ∈ (if p then [] else l)) : ¬p ∧ a ∈ l := by
  split_ifs at h with hp
  · simp at h
  · exact ⟨hp, h⟩

theorem mem_check_all_lines_rules {d : Diag} {line : Str} {n : Nat} {rules : List String}
    (h : d ∈ check_all_lines_rules line n rules) :
    (d.code = "H008" ∨ d.code = "H010" ∨ d.code = "H022") ∧ d.line = n := by
  unfold check_all_lines_rules at h
  simp only [List.mem_append] at h
  rcases h with (h | h) | h
  · obtain ⟨_, h2⟩ := mem_ite_nil h
    simp only [List.mem_singleton] at h2
    subst h2; simp
  · obtain ⟨_, h2⟩ := mem_ite_nil h
    simp only [List.mem_singleton] at h2
    subst h2; simp
  · obtain ⟨_, h2⟩ := mem_ite_nil h
    simp only [List.mem_singleton] at h2
    subst h2; simp

theorem mem_check_incorrect_words {d : Diag} {line clean : Str} {n : Nat}
    (h : d ∈ check_incorrect_words line clean n) :
    d.code = "H006" ∧ d.line = n := by
  unfold check_incorrect_words at h
  simp only [List.mem_flatMap] at h
  obtain ⟨p, _, h⟩ := h
  split_ifs at h <;> simp_all

theorem mem_check_double_spaces {d : Diag} {line : Str} {n : Nat}
    {cl : List Str} {i : Nat}
    (h : d ∈ check_double_spaces line n cl i) :
    d.code = "H009" ∧ d.line = n := by
  unfold check_double_spaces at h
  split_ifs at h <;> simp_all

theorem mem_check_colon_before_code {d : Diag} {line : Str} {n i : Nat}
    {cbi : List (Str × Bool)}
    (h : d ∈ check_colon_before_code line n i cbi) :
    d.code = "H013" ∧ d.line = n := by
  unfold check_colon_before_code at h
  split_ifs at h <;> simp_all

theorem mem_check_colon_before_image {d : Diag} {line : Str} {n : Nat}
    {cl : List Str} {i : Nat}
    (h : d ∈ check_colon_before_image line n cl i) :
    d.code = "H014" ∧ d.line = n := by
  unfold check_colon_before_image at h
  split_ifs at h <;> simp_all

theorem mem_check_space_before_punctuation {d : Diag} {line : Str} {n : Nat}
    (h : d ∈ check_space_before_punctuation line n) :
    d.code = "H015" ∧ d.line = n ∧
      ∃ m, d.col = m + 1 ∧ inRanges (code_ranges_of line) m = false := by
  unfold check_space_before_punctuation at h
  simp only [List.mem_append] at h
  rcases h with h | h
  · simp only [List.mem_flatMap] at h
    obtain ⟨pat, _, h⟩ := h
    split at h
    · rename_i m _
      obtain ⟨hr, h⟩ := mem_ite_nil_left h
      simp only [List.mem_singleton] at h
      subst h
      exact ⟨rfl, rfl, m, rfl, by simpa using hr⟩
    · simp at h
  · obtain ⟨_, h⟩ := mem_ite_nil h
    obtain ⟨hr, h⟩ := mem_ite_nil_left h
    obtain ⟨_, h⟩ := mem_ite_nil h
    simp only [List.mem_singleton] at h
    subst h
    refine ⟨rfl, rfl, _, rfl, by simpa using hr⟩

theorem mem_check_quotes {d : Diag} {line clean : Str} {n : Nat}
    (h : d ∈ check_quotes line clean n) :
    d.code = "H018" ∧ d.line = n := by
  unfold check_quotes at h
  simp only [List.mem_flatMap] at h
  obtain ⟨q, _, h⟩ := h
  split_ifs at h <;> simp_all

theorem mem_check_html_tags {d : Diag} {line : Str} {n : Nat}
    (h : d ∈ check_html_tags line n) :
    d.code = "H019" ∧ d.line = n := by
  unfold check_html_tags at h
  simp only [List.mem_flatMap] at h
  obtain ⟨t, _, h⟩ := h
  split_ifs at h <;> simp_all

theorem mem_check_image_caption {d : Diag} {line : Str} {n : Nat}
    (h : d ∈ check_image_caption line n) :
    d.code = "H020" ∧ d.line = n := by
  unfold check_image_caption at h
  split at h
  · simp at h
  · simp only at h
    split at h
    · split at h
      · obtain ⟨_, h2⟩ := mem_ite_nil h
        simp only [List.mem_singleton] at h2
        subst h2
        simp
      · simp at h
    · simp at h

theorem mem_check_lowercase_after_punctuation {d : Diag} {line clean : Str} {n : Nat}
    (h : d ∈ check_lowercase_after_punctuation line clean n) :
    d.code = "H021" ∧ d.line = n := by
  unfold check_lowercase_after_punctuation at h
  simp only [List.mem_flatMap] at h
  obtain ⟨m, _, h⟩ := h
  split_ifs at h <;> simp_all

theorem mem_check_image_not_at_line_start {d : Diag} {line : Str} {n : Nat}
    (h : d ∈ check_image_not_at_line_start line n) :
    d.code = "H026" ∧ d.line = n := by
  unfold check_image_not_at_line_start at h
  obtain ⟨_, h⟩ := mem_ite_nil_left h
  simp only [List.mem_singleton] at h
  subst h
  simp

theorem mem_check_horizontal_bar {d : Diag} {line clean : Str} {n : Nat}
    (h : d ∈ check_horizontal_bar line clean n) :
    d.code = "H028" ∧ d.line = n := by
  unfold check_horizontal_bar at h
  obtain ⟨_, h⟩ := mem_ite_nil_left h
  simp only [List.mem_singleton] at h
  subst h
  simp

end MarkdownChecker

namespace MarkdownChecker

theorem code_ranges_aux_lb : ∀ (segs : List (Str × Bool)) (acc : Nat) (r : Nat × Nat),
    r ∈ code_ranges_aux segs acc → acc ≤ r.1 := by
  intro segs
  induction segs with
  | nil => intro acc r h; simp [code_ranges_aux] at h
  | cons s rest ih =>
      intro acc r h
      obtain ⟨seg, b⟩ := s
      simp only [code_ranges_aux, List.mem_append] at h
      rcases h with h | h
      · split at h
        · simp only [List.mem_singleton] at h
          subst h
          exact le_refl _
        · simp at h
      · have := ih (acc + seg.length) r h
        omega

theorem code_ranges_aux_cons_true (seg : Str) (rest : List (Str × Bool)) (acc : Nat) :
    code_ranges_aux ((seg, true) :: rest) acc =
      (acc, acc + seg.length) :: code_ranges_aux rest (acc + seg.length) := by
  simp [code_ranges_aux]

theorem code_ranges_aux_cons_false (seg : Str) (rest : List (Str × Bool)) (acc : Nat) :
    code_ranges_aux ((seg, false) :: rest) acc = code_ranges_aux rest (acc + seg.length) := by
  simp [code_ranges_aux]

theorem spanAt_eq_inRanges : ∀ (segs : List (Str × Bool)) (acc p : Nat),
    inRanges (code_ranges_aux segs acc) (acc + p) = spanAt segs p := by
  intro segs
  induction segs with
  | nil => intro acc p; simp [code_ranges_aux, spanAt, inRanges]
  | cons s rest ih =>
      intro acc p
      obtain ⟨seg, b⟩ := s
      have hih := ih (acc + seg.length) (p - seg.length)
      by_cases hp : p < seg.length
      · simp only [spanAt, if_pos hp]
        cases b with
        | true =>
            rw [code_ranges_aux_cons_true]
            simp only [inRanges, List.any_cons]
            have hhead : (decide ((acc, acc + seg.length).1 ≤ acc + p)
                && decide (acc + p < (acc, acc + seg.length).2)) = true := by
              simp only [Bool.and_eq_true, decide_eq_true_eq]
              omega
            rw [hhead, Bool.true_or]
        | false =>
            rw [code_ranges_aux_cons_false]
            simp only [inRanges]
            rw [List.any_eq_false]
            intro r hr
            have := code_ranges_aux_lb rest (acc + seg.length) r hr
            simp only [Bool.and_eq_true, decide_eq_true_eq, not_and]
            intro h1
            omega
      · simp only [spanAt, if_neg hp]
        have hsplit : acc + p = (acc + seg.length) + (p - seg.length) := by omega
        rw [hsplit]
        cases b with
        | true =>
            rw [code_ranges_aux_cons_true]
            simp only [inRanges, List.any_cons]
            have hhead : (decide ((acc, acc + seg.length).1 ≤ acc + seg.length + (p - seg.length))
                && decide (acc + seg.length + (p - seg.length) < (acc, acc + seg.length).2))
                  = false := by
              simp only [Bool.and_eq_false_iff, decide_eq_false_iff_not]
              right
              omega
            rw [hhead, Bool.false_or]
            exact hih
        | false =>
            rw [code_ranges_aux_cons_false]
            exact hih

theorem insideInlineSpan_eq_inRanges (line : Str) (p : Nat) :
    insideInlineSpan line p = inRanges (code_ranges_of line) p := by
  unfold insideInlineSpan code_ranges_of
  have := spanAt_eq_inRanges (identifyCodeBlocksLine line) 0 p
  simpa using this.symm

theorem findSub_some_lt {s needle : Str} {i : Nat} (hne : needle ≠ [])
    (h : findSub s needle = some i) : i < s.length := by
  induction s generalizing i with
  | nil =>
      unfold findSub at h
      rw [if_neg (by simpa [List.isEmpty_iff] using hne)] at h
      simp at h
  | cons c rest ih =>
      unfold findSub at h
      split_ifs at h with hp
      · simp only [Option.some_inj] at h
        subst h
        simp
      · simp only [Option.map_eq_some'] at h
        obtain ⟨j, hj, hji⟩ := h
        have := ih hj
        subst hji
        simp
        omega

theorem findSub_none_iff {s needle : Str} :
    findSub s needle = none ↔ containsSub s needle = false := by
  induction s with
  | nil =>
      unfold findSub containsSub
      cases hne : needle.isEmpty <;> simp [hne]
  | cons c rest ih =>
      unfold findSub containsSub
      split_ifs with hp
      · simp [hp]
      · simp only [hp, Bool.false_or, Option.map_eq_none']
        exact ih

end MarkdownChecker

namespace MarkdownChecker

theorem mem_dash_space_hyphen {line : Str} {n : Nat} {d : Diag} :
    ∀ {segs : List (Str × Bool)} {offset : Nat},
    d ∈ dash_space_hyphen line n segs offset → d.code = "H016" ∧ d.line = n := by
  intro segs
  induction segs with
  | nil => intro offset h; simp [dash_space_hyphen] at h
  | cons s rest ih =>
      intro offset h
      obtain ⟨seg, inCode⟩ := s
      unfold dash_space_hyphen at h
      split_ifs at h
      · exact ih h
      · simp only [List.mem_singleton] at h
        subst h; simp
      · exact ih h

theorem mem_dash_minus_double {n : Nat} {d : Diag} :
    ∀ {segs : List (Str × Bool)} {offset : Nat},
    d ∈ dash_minus_double n segs offset → d.code = "H016" ∧ d.line = n := by
  intro segs
  induction segs with
  | nil => intro offset h; simp [dash_minus_double] at h
  | cons s rest ih =>
      intro offset h
      obtain ⟨seg, inCode⟩ := s
      unfold dash_minus_double at h
      split_ifs at h
      · exact ih h
      · simp only [List.mem_singleton] at h
        subst h; simp
      · simp only [List.mem_singleton] at h
        subst h; simp
      · exact ih h

theorem mem_check_dash_usage {line clean : Str} {n : Nat} {d : Diag}
    (h : d ∈ check_dash_usage line clean n) : d.code = "H016" ∧ d.line = n := by
  unfold check_dash_usage at h
  simp only [List.mem_append] at h
  rcases h with ((h | h) | h) | h
  · exact mem_dash_space_hyphen h
  · exact mem_dash_minus_double h
  · split_ifs at h
    · simp only [List.mem_flatMap] at h
      obtain ⟨q, _, h⟩ := h
      split_ifs at h <;> simp_all
    · simp at h
  · split_ifs at h
    · simp only [List.mem_flatMap] at h
      obtain ⟨q, _, h⟩ := h
      split_ifs at h <;> simp_all
    · simp at h

theorem mem_pronoun_scan {line : Str} {ranges : List (Nat × Nat)} {n : Nat} {d : Diag} :
    ∀ {ws : List String},
    d ∈ pronoun_scan line ranges n ws →
    d.code = "H024" ∧ d.line = n ∧
      ∃ i, d.col = i + 1 ∧ inRanges ranges i = false := by
  intro ws
  induction ws with
  | nil => intro h; simp [pronoun_scan] at h
  | cons w rest ih =>
      intro h
      unfold pronoun_scan at h
      split at h
      · rename_i i heq
        simp only [List.mem_singleton] at h
        subst h
        refine ⟨rfl, rfl, i, rfl, ?_⟩
        have hmem : i ∈ (wordMatchesAll line w.toList).filter
            (fun j => !inRanges ranges j && !at_sentence_start line j) := by
          cases hfl : (wordMatchesAll line w.toList).filter
              (fun j => !inRanges ranges j && !at_sentence_start line j) with
          | nil => rw [hfl] at heq; simp at heq
          | cons a tl =>
              rw [hfl] at heq
              simp only [List.head?_cons, Option.some_inj] at heq
              rw [← heq]
              exact List.mem_cons_self _ _
        have := (List.mem_filter.1 hmem).2
        simp only [Bool.and_eq_true, Bool.not_eq_true'] at this
        exact this.1
      · exact ih h

theorem mem_check_russian_polite_pronouns {line : Str} {n : Nat} {d : Diag}
    (h : d ∈ check_russian_polite_pronouns line n) :
    d.code = "H024" ∧ d.line = n ∧ insideInlineSpan line (d.col - 1) = false := by
  unfold check_russian_polite_pronouns at h
  obtain ⟨hc, hl, i, hcol, hr⟩ := mem_pronoun_scan h
  refine ⟨hc, hl, ?_⟩
  rw [hcol, Nat.add_sub_cancel, insideInlineSpan_eq_inRanges]
  exact hr

theorem mem_x_in_segment {seg : Str} {offset n : Nat} {d : Diag}
    (h : d ∈ x_in_segment seg offset n) :
    d.code = "H025" ∧ d.line = n ∧ ∃ pos, pos < seg.length ∧ d.col = offset + pos + 1 := by
  unfold x_in_segment at h
  simp only [List.mem_filterMap] at h
  obtain ⟨pos, hpos, h⟩ := h
  simp only [List.mem_range] at hpos
  split_ifs at h <;> simp only [Option.some_inj] at h <;> first
    | simp at h
    | (subst h; exact ⟨rfl, rfl, pos, hpos, rfl⟩)

theorem mem_x_segments {n : Nat} {d : Diag} :
    ∀ {segs : List (Str × Bool)} {offset : Nat},
    d ∈ x_segments n segs offset →
    d.code = "H025" ∧ d.line = n ∧ ∃ p, d.col = offset + p + 1 ∧ spanAt segs p = false := by
  intro segs
  induction segs with
  | nil => intro offset h; simp [x_segments] at h
  | cons s rest ih =>
      intro offset h
      obtain ⟨seg, inCode⟩ := s
      unfold x_segments at h
      simp only [List.mem_append] at h
      rcases h with h | h
      · cases inCode with
        | true => simp at h
        | false =>
            simp only [if_neg Bool.false_ne_true] at h
            obtain ⟨hc, hl, pos, hpos, hcol⟩ := mem_x_in_segment h
            exact ⟨hc, hl, pos, hcol, by simp [spanAt, hpos]⟩
      · obtain ⟨hc, hl, p, hcol, hspan⟩ := ih h
        refine ⟨hc, hl, seg.length + p, by omega, ?_⟩
        simp only [spanAt, if_neg (by omega : ¬ seg.length + p < seg.length)]
        simpa using hspan

theorem mem_check_x_instead_of_times {line : Str} {n : Nat} {d : Diag}
    (h : d ∈ check_x_instead_of_times line n) :
    d.code = "H025" ∧ d.line = n ∧ insideInlineSpan line (d.col - 1) = false := by
  unfold check_x_instead_of_times at h
  obtain ⟨hc, hl, p, hcol, hspan⟩ := mem_x_segments h
  refine ⟨hc, hl, ?_⟩
  rw [hcol]
  simpa [insideInlineSpan] using hspan

theorem mem_qmark_scan {n : Nat} {d : Diag} :
    ∀ {segs : List (Str × Bool)} {offset : Nat},
    d ∈ qmark_scan n segs offset →
    d.code = "H030" ∧ d.line = n ∧ ∃ p, d.col = offset + p + 1 ∧ spanAt segs p = false := by
  intro segs
  induction segs with
  | nil => intro offset h; simp [qmark_scan] at h
  | cons s rest ih =>
      intro offset h
      obtain ⟨seg, inCode⟩ := s
      unfold qmark_scan at h
      split_ifs at h with h1 h2
      · obtain ⟨hc, hl, p, hcol, hspan⟩ := ih h
        refine ⟨hc, hl, seg.length + p, by omega, ?_⟩
        simp only [spanAt, if_neg (by omega : ¬ seg.length + p < seg.length)]
        simpa using hspan
      · simp only [List.mem_singleton] at h
        subst h
        refine ⟨rfl, rfl, (findSub seg "?.".toList).getD 0, rfl, ?_⟩
        have hfound : containsSub seg "?.".toList = true := h2
        have hex : ∃ m, findSub seg "?.".toList = some m := by
          cases hf : findSub seg "?.".toList with
          | none =>
              rw [findSub_none_iff] at hf
              rw [hf] at hfound
              exact absurd hfound (by simp)
          | some m => exact ⟨m, rfl⟩
        obtain ⟨m, hm⟩ := hex
        have hlt := findSub_some_lt (by decide) hm
        rw [hm]
        simp only [Option.getD_some, spanAt, if_pos hlt]
        simpa using h1
      · obtain ⟨hc, hl, p, hcol, hspan⟩ := ih h
        refine ⟨hc, hl, seg.length + p, by omega, ?_⟩
        simp only [spanAt, if_neg (by omega : ¬ seg.length + p < seg.length)]
        simpa using hspan

end MarkdownChecker

namespace MarkdownChecker

theorem mem_check_question_mark_period {line : Str} {n : Nat} {d : Diag}
    (h : d ∈ check_question_mark_period line n) :
    d.code = "H030" ∧ d.line = n ∧ insideInlineSpan line (d.col - 1) = false := by
  unfold check_question_mark_period at h
  obtain ⟨hc, hl, p, hcol, hspan⟩ := mem_qmark_scan h
  refine ⟨hc, hl, ?_⟩
  rw [hcol]
  simpa [insideInlineSpan] using hspan

theorem mem_check_space_before_punctuation_span {line : Str} {n : Nat} {d : Diag}
    (h : d ∈ check_space_before_punctuation line n) :
    d.code = "H015" ∧ d.line = n ∧ insideInlineSpan line (d.col - 1) = false := by
  obtain ⟨hc, hl, m, hcol, hr⟩ := mem_check_space_before_punctuation h
  refine ⟨hc, hl, ?_⟩
  rw [hcol, Nat.add_sub_cancel, insideInlineSpan_eq_inRanges]
  exact hr

theorem mem_numero_scan {n : Nat} {d : Diag} :
    ∀ {s : Str} {idx : Nat}, d ∈ numero_scan n s idx → d.code = "H029" ∧ d.line = n := by
  intro s
  induction s with
  | nil => intro idx h; simp [numero_scan] at h
  | cons c rest ih =>
      intro idx h
      unfold numero_scan at h
      simp only [List.mem_append] at h
      rcases h with h | h
      · split_ifs at h
        · split at h
          · split_ifs at h
            · simp only [List.mem_singleton] at h
              subst h; simp
            · simp at h
          · simp at h
        · simp at h
      · exact ih h

theorem mem_check_numero_space {line : Str} {n : Nat} {d : Diag}
    (h : d ∈ check_numero_space line n) : d.code = "H029" ∧ d.line = n := by
  unfold check_numero_space at h
  exact mem_numero_scan h

theorem mem_check_non_code_line_rules {line : Str} {n : Nat} {cl : List Str} {i : Nat}
    {cbi : List (Str × Bool)} {rules : List String} {Y : Nat} {lang : Str} {d : Diag}
    (h : d ∈ check_non_code_line_rules line n cl i cbi rules Y lang) :
    d.line = n ∧ d.code ∈ proseRuleCodes := by
  unfold check_non_code_line_rules at h
  simp only [List.mem_append] at h
  rcases h with ((((((((((((((((h | h) | h) | h) | h) | h) | h) | h) | h) | h) | h)
    | h) | h) | h) | h) | h) | h) | h
  · obtain ⟨_, h⟩ := mem_ite_nil h
    obtain ⟨hc, hl⟩ := mem_check_incorrect_words h
    exact ⟨hl, by rw [hc]; decide⟩
  · obtain ⟨_, h⟩ := mem_ite_nil h
    obtain ⟨hc, hl⟩ := mem_check_double_spaces h
    exact ⟨hl, by rw [hc]; decide⟩
  · obtain ⟨_, h⟩ := mem_ite_nil h
    obtain ⟨hc, hl⟩ := mem_check_colon_before_code h
    exact ⟨hl, by rw [hc]; decide⟩
  · obtain ⟨_, h⟩ := mem_ite_nil h
    obtain ⟨hc, hl⟩ := mem_check_colon_before_image h
    exact ⟨hl, by rw [hc]; decide⟩
  · obtain ⟨_, h⟩ := mem_ite_nil h
    obtain ⟨hc, hl, _⟩ := mem_check_space_before_punctuation h
    exact ⟨hl, by rw [hc]; decide⟩
  · obtain ⟨_, h⟩ := mem_ite_nil h
    obtain ⟨hc, hl⟩ := mem_check_dash_usage h
    exact ⟨hl, by rw [hc]; decide⟩
  · obtain ⟨_, h⟩ := mem_ite_nil h
    simp only [List.mem_singleton] at h
    subst h
    refine ⟨rfl, ?_⟩
    show "H017" ∈ proseRuleCodes
    decide
  · obtain ⟨_, h⟩ := mem_ite_nil h
    simp only [List.mem_singleton] at h
    subst h
    refine ⟨rfl, ?_⟩
    show "H017" ∈ proseRuleCodes
    decide
  · obtain ⟨_, h⟩ := mem_ite_nil h
    obtain ⟨hc, hl⟩ := mem_check_quotes h
    exact ⟨hl, by rw [hc]; decide⟩
  · obtain ⟨_, h⟩ := mem_ite_nil h
    obtain ⟨hc, hl⟩ := mem_check_html_tags h
    exact ⟨hl, by rw [hc]; decide⟩
  · obtain ⟨_, h⟩ := mem_ite_nil h
    obtain ⟨hc, hl⟩ := mem_check_image_caption h
    exact ⟨hl, by rw [hc]; decide⟩
  · obtain ⟨_, h⟩ := mem_ite_nil h
    obtain ⟨hc, hl⟩ := mem_check_lowercase_after_punctuation h
    exact ⟨hl, by rw [hc]; decide⟩
  · obtain ⟨_, h⟩ := mem_ite_nil h
    obtain ⟨hc, hl, _⟩ := mem_check_russian_polite_pronouns h
    exact ⟨hl, by rw [hc]; decide⟩
  · obtain ⟨_, h⟩ := mem_ite_nil h
    obtain ⟨hc, hl, _⟩ := mem_check_x_instead_of_times h
    exact ⟨hl, by rw [hc]; decide⟩
  · obtain ⟨_, h⟩ := mem_ite_nil h
    obtain ⟨hc, hl⟩ := mem_check_image_not_at_line_start h
    exact ⟨hl, by rw [hc]; decide⟩
  · obtain ⟨_, h⟩ := mem_ite_nil h
    obtain ⟨hc, hl⟩ := mem_check_horizontal_bar h
    exact ⟨hl, by rw [hc]; decide⟩
  · obtain ⟨_, h⟩ := mem_ite_nil h
    obtain ⟨hc, hl⟩ := mem_check_numero_space h
    exact ⟨hl, by rw [hc]; decide⟩
  · obtain ⟨_, h⟩ := mem_ite_nil h
    obtain ⟨hc, hl, _⟩ := mem_check_question_mark_period h
    exact ⟨hl, by rw [hc]; decide⟩

end MarkdownChecker

/-- C3 counterexample: the claim fails as stated.  On concrete prose
lines, the rules H006, H009, H016, H017, H018 and H021 each emit a
diagnostic whose column falls inside an inline-code span (they locate
the column by searching the original line, which can hit the occurrence
inside the backticks). -/
theorem C3_inline_code_column_cex :
    (∃ d ∈ MarkdownChecker.check_non_code_line_rules
        "Use `markdown` in code, but markdown outside.".toList 1
        ["Use `markdown` in code, but markdown outside.".toList] 0
        [("Use `markdown` in code, but markdown outside.".toList, false)]
        MarkdownChecker.all_rules 1 "ru".toList,
      d.code = "H006" ∧
        insideInlineSpan "Use `markdown` in code, but markdown outside.".toList (d.col - 1) = true) ∧
    (∃ d ∈ MarkdownChecker.check_non_code_line_rules "a `b  c` d".toList 1
        ["a `b  c` d".toList] 0 [("a `b  c` d".toList, false)]
        MarkdownChecker.all_rules 1 "ru".toList,
      d.code = "H009" ∧ insideInlineSpan "a `b  c` d".toList (d.col - 1) = true) ∧
    (∃ d ∈ MarkdownChecker.check_non_code_line_rules "`–` 5–a".toList 1
        ["`–` 5–a".toList] 0 [("`–` 5–a".toList, false)]
        MarkdownChecker.all_rules 1 "ru".toList,
      d.code = "H016" ∧ insideInlineSpan "`–` 5–a".toList (d.col - 1) = true) ∧
    (∃ d ∈ MarkdownChecker.check_non_code_line_rules "`...` abc...".toList 1
        ["`...` abc...".toList] 0 [("`...` abc...".toList, false)]
        MarkdownChecker.all_rules 1 "ru".toList,
      d.code = "H017" ∧ insideInlineSpan "`...` abc...".toList (d.col - 1) = true) ∧
    (∃ d ∈ MarkdownChecker.check_non_code_line_rules "`\"` and \"".toList 1
        ["`\"` and \"".toList] 0 [("`\"` and \"".toList, false)]
        MarkdownChecker.all_rules 1 "ru".toList,
      d.code = "H018" ∧ insideInlineSpan "`\"` and \"".toList (d.col - 1) = true) ∧
    (∃ d ∈ MarkdownChecker.check_non_code_line_rules "`. a` x. a".toList 1
        ["`. a` x. a".toList] 0 [("`. a` x. a".toList, false)]
        MarkdownChecker.all_rules 1 "ru".toList,
      d.code = "H021" ∧ insideInlineSpan "`. a` x. a".toList (d.col - 1) = true) := by
  decide

/-- C3 (amended): for every prose line, every diagnostic of the rules
H015, H024, H025 and H030 carries a column that does not fall inside an
inline-code span of the line (a span delimited by matching backtick
runs).  For H006, H009, H016, H017, H018 and H021 the original claim is
refuted by `C3_inline_code_column_cex`. -/
theorem C3_inline_code_column_amended (line : Str) (n : Nat) (cl : List Str) (i : Nat)
    (cbi : List (Str × Bool)) (rules : List String) (Y : Nat) (lang : Str) (d : Diag)
    (hd : d ∈ MarkdownChecker.check_non_code_line_rules line n cl i cbi rules Y lang)
    (hc : d.code ∈ (["H015", "H024", "H025", "H030"] : List String)) :
    insideInlineSpan line (d.col - 1) = false := by
  unfold MarkdownChecker.check_non_code_line_rules at hd
  simp only [List.mem_append] at hd
  rcases hd with ((((((((((((((((h | h) | h) | h) | h) | h) | h) | h) | h) | h) | h)
    | h) | h) | h) | h) | h) | h) | h
  · obtain ⟨_, h⟩ := MarkdownChecker.mem_ite_nil h
    obtain ⟨hcode, _⟩ := MarkdownChecker.mem_check_incorrect_words h
    rw [hcode] at hc
    exact absurd hc (by decide)
  · obtain ⟨_, h⟩ := MarkdownChecker.mem_ite_nil h
    obtain ⟨hcode, _⟩ := MarkdownChecker.mem_check_double_spaces h
    rw [hcode] at hc
    exact absurd hc (by decide)
  · obtain ⟨_, h⟩ := MarkdownChecker.mem_ite_nil h
    obtain ⟨hcode, _⟩ := MarkdownChecker.mem_check_colon_before_code h
    rw [hcode] at hc
    exact absurd hc (by decide)
  · obtain ⟨_, h⟩ := MarkdownChecker.mem_ite_nil h
    obtain ⟨hcode, _⟩ := MarkdownChecker.mem_check_colon_before_image h
    rw [hcode] at hc
    exact absurd hc (by decide)
  · obtain ⟨_, h⟩ := MarkdownChecker.mem_ite_nil h
    obtain ⟨_, _, hspan⟩ := MarkdownChecker.mem_check_space_before_punctuation_span h
    exact hspan
  · obtain ⟨_, h⟩ := MarkdownChecker.mem_ite_nil h
    obtain ⟨hcode, _⟩ := MarkdownChecker.mem_check_dash_usage h
    rw [hcode] at hc
    exact absurd hc (by decide)
  · obtain ⟨_, h⟩ := MarkdownChecker.mem_ite_nil h
    simp only [List.mem_singleton] at h
    subst h
    have hc2 : ("H017" : String) ∈ (["H015", "H024", "H025", "H030"] : List String) := hc
    exact absurd hc2 (by decide)
  · obtain ⟨_, h⟩ := MarkdownChecker.mem_ite_nil h
    simp only [List.mem_singleton] at h
    subst h
    have hc2 : ("H017" : String) ∈ (["H015", "H024", "H025", "H030"] : List String) := hc
    exact absurd hc2 (by decide)
  · obtain ⟨_, h⟩ := MarkdownChecker.mem_ite_nil h
    obtain ⟨hcode, _⟩ := MarkdownChecker.mem_check_quotes h
    rw [hcode] at hc
    exact absurd hc (by decide)
  · obtain ⟨_, h⟩ := MarkdownChecker.mem_ite_nil h
    obtain ⟨hcode, _⟩ := MarkdownChecker.mem_check_html_tags h
    rw [hcode] at hc
    exact absurd hc (by decide)
  · obtain ⟨_, h⟩ := MarkdownChecker.mem_ite_nil h
    obtain ⟨hcode, _⟩ := MarkdownChecker.mem_check_image_caption h
    rw [hcode] at hc
    exact absurd hc (by decide)
  · obtain ⟨_, h⟩ := MarkdownChecker.mem_ite_nil h
    obtain ⟨hcode, _⟩ := MarkdownChecker.mem_check_lowercase_after_punctuation h
    rw [hcode] at hc
    exact absurd hc (by decide)
  · obtain ⟨_, h⟩ := MarkdownChecker.mem_ite_nil h
    obtain ⟨_, _, hspan⟩ := MarkdownChecker.mem_check_russian_polite_pronouns h
    exact hspan
  · obtain ⟨_, h⟩ := MarkdownChecker.mem_ite_nil h
    obtain ⟨_, _, hspan⟩ := MarkdownChecker.mem_check_x_instead_of_times h
    exact hspan
  · obtain ⟨_, h⟩ := MarkdownChecker.mem_ite_nil h
    obtain ⟨hcode, _⟩ := MarkdownChecker.mem_check_image_not_at_line_start h
    rw [hcode] at hc
    exact absurd hc (by decide)
  · obtain ⟨_, h⟩ := MarkdownChecker.mem_ite_nil h
    obtain ⟨hcode, _⟩ := MarkdownChecker.mem_check_horizontal_bar h
    rw [hcode] at hc
    exact absurd hc (by decide)
  · obtain ⟨_, h⟩ := MarkdownChecker.mem_ite_nil h
    obtain ⟨hcode, _⟩ := MarkdownChecker.mem_check_numero_space h
    rw [hcode] at hc
    exact absurd hc (by decide)
  · obtain ⟨_, h⟩ := MarkdownChecker.mem_ite_nil h
    obtain ⟨_, _, hspan⟩ := MarkdownChecker.mem_check_question_mark_period h
    exact hspan

/-- Witness for the amended C3: a concrete H025 diagnostic whose column
lies outside every inline-code span. -/
theorem C3_inline_code_column_amended_witness :
    ∃ d ∈ MarkdownChecker.check_non_code_line_rules "a x b".toList 1
        ["a x b".toList] 0 [("a x b".toList, false)]
        MarkdownChecker.all_rules 1 "ru".toList,
      d.code ∈ (["H015", "H024", "H025", "H030"] : List String) ∧
        insideInlineSpan "a x b".toList (d.col - 1) = false := by
  have hd : (⟨"H025",
      MarkdownChecker.ruleText "H025" ++ ": \"x\" should be \"×\"", 1, 3⟩ : Diag) ∈
      MarkdownChecker.check_non_code_line_rules "a x b".toList 1
        ["a x b".toList] 0 [("a x b".toList, false)]
        MarkdownChecker.all_rules 1 "ru".toList := by decide
  refine ⟨_, hd, by decide, ?_⟩
  exact C3_inline_code_column_amended "a x b".toList 1 ["a x b".toList] 0
    [("a x b".toList, false)] MarkdownChecker.all_rules 1 "ru".toList _ hd (by decide)

namespace MarkdownChecker

theorem mem_check_filename_rules {f : MDFile} {rules : List String} {d : Diag}
    (h : d ∈ check_filename_rules f rules) :
    (d.code = "H001" ∨ d.code = "H002") ∧ d.line = 0 ∧ d.col = 0 := by
  unfold check_filename_rules at h
  simp only [List.mem_append] at h
  rcases h with h | h <;>
    (obtain ⟨_, h2⟩ := mem_ite_nil h; simp only [List.mem_singleton] at h2; subst h2; simp)

theorem mem_check_file_level_rules {all_lines : List Str} {rules : List String}
    {content : Str} {d : Diag} (h : d ∈ check_file_level_rules all_lines rules content) :
    (d.code = "H011" ∨ d.code = "H012") ∧ 1 ≤ d.line ∧ d.col = 0 := by
  unfold check_file_level_rules at h
  simp only [List.mem_append] at h
  rcases h with h | h
  · obtain ⟨hcond, h2⟩ := mem_ite_nil h
    simp only [List.mem_singleton] at h2
    subst h2
    refine ⟨Or.inl rfl, ?_, rfl⟩
    have hne : all_lines ≠ [] := by
      intro he
      rw [he] at hcond
      simp at hcond
    rcases all_lines with _ | ⟨a, t⟩
    · exact absurd rfl hne
    · simp
  · obtain ⟨_, h2⟩ := mem_ite_nil h
    simp only [List.mem_filterMap] at h2
    obtain ⟨i, _, h3⟩ := h2
    split_ifs at h3 <;>
      first
      | (simp only [Option.some_inj] at h3
         subst h3
         exact ⟨Or.inr rfl, by simp, rfl⟩)
      | simp at h3

theorem find_dashes_line_ge : ∀ (l : List Str) (k m : Nat),
    find_dashes_line l k = some m → k ≤ m := by
  intro l
  induction l with
  | nil => intro k m h; simp [find_dashes_line] at h
  | cons a t ih =>
      intro k m h
      unfold find_dashes_line at h
      split_ifs at h
      · simp only [Option.some_inj] at h
        omega
      · have := ih (k + 1) m h
        omega

theorem find_yaml_block_end_line_pos (all_lines : List Str) :
    1 ≤ find_yaml_block_end_line all_lines := by
  unfold find_yaml_block_end_line
  split
  · omega
  · split_ifs
    · omega
    · rename_i h t _
      cases hf : find_dashes_line t 2 with
      | none => simp [hf]
      | some m =>
          have := find_dashes_line_ge t 2 m hf
          simp [hf]
          omega

theorem find_field_line_ge : ∀ (l : List Str) (field : Str) (k : Nat),
    1 ≤ k → 1 ≤ find_field_line l field k := by
  intro l
  induction l with
  | nil => intro field k _; simp [find_field_line]
  | cons a t ih =>
      intro field k hk
      unfold find_field_line
      split_ifs
      · omega
      · omega
      · exact ih field (k + 1) (by omega)

theorem find_yaml_field_line_in_original_pos (all_lines : List Str) (field : Str) :
    1 ≤ find_yaml_field_line_in_original all_lines field := by
  unfold find_yaml_field_line_in_original
  split
  · omega
  · split_ifs
    · omega
    · exact find_field_line_ge _ field 2 (by omega)

theorem find_yaml_end_line_pos (all_lines : List Str) :
    1 ≤ find_yaml_end_line all_lines := by
  unfold find_yaml_end_line
  split
  · omega
  · split_ifs
    · omega
    · cases hf : find_dashes_line _ 2 with
      | none => simp [hf]
      | some m => simp [hf]

theorem mem_check_yaml_rules {yaml_content : Str} {all_lines : List Str}
    {rules : List String} {d : Diag} (h : d ∈ check_yaml_rules yaml_content all_lines rules) :
    (d.code = "H000" ∨ d.code = "H003" ∨ d.code = "H004" ∨ d.code = "H005") ∧ 1 ≤ d.line := by
  unfold check_yaml_rules at h
  split at h
  · simp only [List.mem_singleton] at h
    subst h
    exact ⟨Or.inl rfl, by simp⟩
  · split_ifs at h <;>
      first
      | (simp only [List.mem_singleton] at h
         subst h
         first
         | exact ⟨Or.inr (Or.inl rfl), by simp⟩
         | exact ⟨Or.inr (Or.inr (Or.inl rfl)), find_yaml_block_end_line_pos all_lines⟩
         | exact ⟨Or.inr (Or.inr (Or.inr rfl)),
             find_yaml_field_line_in_original_pos all_lines "lang".toList⟩)
      | simp at h

theorem mem_check_code_rules {all_lines : List Str} {Y : Nat} {rules : List String}
    {d : Diag} (h : d ∈ check_code_rules all_lines Y rules) :
    d.code = "H007" ∧ 1 ≤ d.line := by
  unfold check_code_rules at h
  simp only [List.mem_flatMap] at h
  obtain ⟨p, _, h⟩ := h
  split_ifs at h <;>
    first
    | simp at h
    | (split at h <;>
        first
        | (simp only [List.mem_singleton] at h
           rw [h]
           exact ⟨rfl, Nat.le_add_left 1 _⟩)
        | simp at h)

theorem identifyCodeBlocksAux_length : ∀ (lines : List Str) (fence : Option Nat),
    (identifyCodeBlocksAux fence lines).length = lines.length := by
  intro lines
  induction lines with
  | nil => intro fence; simp [identifyCodeBlocksAux]
  | cons a t ih =>
      intro fence
      simp only [identifyCodeBlocksAux]
      split
      · split
        · simp [ih]
        · split_ifs <;> simp [ih]
      · simp [ih]

theorem identifyCodeBlocks_length (lines : List Str) :
    (identifyCodeBlocks lines).length = lines.length :=
  identifyCodeBlocksAux_length lines none

theorem mem_check_empty_line_between_paragraphs {cl : List Str}
    {cbi : List (Str × Bool)} {Y : Nat} {d : Diag}
    (h : d ∈ check_empty_line_between_paragraphs cl cbi Y) :
    d.code = "H023" ∧ d.col = 0 ∧
      ∃ i, i + 1 < cl.length ∧ d.line = (Y - 1) + i + 1 ∧
        (cbi.getD i (cl.getD i [], false)).2 = false := by
  unfold check_empty_line_between_paragraphs at h
  simp only [List.mem_filterMap] at h
  obtain ⟨i, hi, h⟩ := h
  simp only [List.mem_range] at hi
  split_ifs at h with h1 h2 h3 h4 <;>
    first
    | (simp only [Option.some_inj] at h
       subst h
       refine ⟨rfl, rfl, i, by omega, rfl, ?_⟩
       simp only [Bool.or_eq_true, not_or, Bool.not_eq_true] at h2
       exact h2.1)
    | (subst h
       refine ⟨rfl, rfl, i, by omega, rfl, ?_⟩
       simp only [Bool.or_eq_true, not_or, Bool.not_eq_true] at h2
       exact h2.1)
    | simp at h

end MarkdownChecker

namespace MarkdownChecker

theorem content_rules_prose_line {all_lines : List Str} {Y : Nat} {rules : List String}
    {content lang : Str} {d : Diag}
    (h : d ∈ check_content_rules all_lines Y rules content lang)
    (hc : d.code ∈ ("H023" :: proseRuleCodes)) :
    ∃ i, i < (if Y > 1 then all_lines.drop (Y - 1) else all_lines).length ∧
      d.line = (Y - 1) + i + 1 ∧
      ((identifyCodeBlocks (if Y > 1 then all_lines.drop (Y - 1) else all_lines)).getD i
        ([], false)).2 = false := by
  unfold check_content_rules at h
  simp only [List.mem_append] at h
  rcases h with (h | h) | h
  · obtain ⟨hcode, _⟩ := mem_check_file_level_rules h
    rcases hcode with hcode | hcode <;> rw [hcode] at hc <;> exact absurd hc (by decide)
  · obtain ⟨_, h2⟩ := mem_ite_nil h
    obtain ⟨_, _, i, hi, hline, hmask⟩ := mem_check_empty_line_between_paragraphs h2
    have hlen : i < (identifyCodeBlocks
        (if Y > 1 then all_lines.drop (Y - 1) else all_lines)).length := by
      rw [identifyCodeBlocks_length]
      omega
    refine ⟨i, by rw [identifyCodeBlocks_length] at hlen; exact hlen, hline, ?_⟩
    rw [List.getD_eq_getElem _ _ hlen] at hmask ⊢
    exact hmask
  · simp only [List.mem_flatMap] at h
    obtain ⟨p, hp, hmem⟩ := h
    have hga := List.mem_enum_iff_getElem?.1 hp
    have hlt : p.1 < (identifyCodeBlocks
        (if Y > 1 then all_lines.drop (Y - 1) else all_lines)).length := by
      exact (List.getElem?_eq_some.1 hga).1
    have hget : (identifyCodeBlocks
        (if Y > 1 then all_lines.drop (Y - 1) else all_lines))[p.1] = p.2 :=
      (List.getElem?_eq_some.1 hga).2
    simp only [List.mem_append] at hmem
    rcases hmem with hmem | hmem
    · obtain ⟨hcode, _⟩ := mem_check_all_lines_rules hmem
      rcases hcode with hcode | hcode | hcode <;> rw [hcode] at hc <;>
        exact absurd hc (by decide)
    · obtain ⟨hcond, hmem2⟩ := mem_ite_nil hmem
      obtain ⟨hline, _⟩ := mem_check_non_code_line_rules hmem2
      refine ⟨p.1, by rw [identifyCodeBlocks_length] at hlt; exact hlt, hline, ?_⟩
      rw [List.getD_eq_getElem _ _ hlt, hget]
      simpa using hcond

end MarkdownChecker

/-- C2 counterexample: the claim fails as stated.  On concrete files,
H012 (blank lines inside a fenced block), H011 (unterminated fence at
end of file without trailing newline), H003 (document starting with a
fence and no YAML) and H004/H005 (YAML read from inline `---` markers
while line 1 opens a fence) each emit a diagnostic whose line is
classified as lying inside a fenced code region. -/
theorem C2_code_region_cex :
    (∃ d ∈ MarkdownChecker.checkDiags
        ⟨"foo.md".toList, "/r/foo.md".toList, "foo.md",
          .ok "```\n\n\n\nx\n```\n".toList⟩ none none,
      d.code = "H012" ∧ line_classified_code "```\n\n\n\nx\n```\n".toList d.line = true) ∧
    (∃ d ∈ MarkdownChecker.checkDiags
        ⟨"foo.md".toList, "/r/foo.md".toList, "foo.md", .ok "```\ncode".toList⟩ none none,
      d.code = "H011" ∧ line_classified_code "```\ncode".toList d.line = true) ∧
    (∃ d ∈ MarkdownChecker.checkDiags
        ⟨"foo.md".toList, "/r/foo.md".toList, "foo.md", .ok "```\ncode".toList⟩ none none,
      d.code = "H003" ∧ line_classified_code "```\ncode".toList d.line = true) ∧
    (∃ d ∈ MarkdownChecker.checkDiags
        ⟨"foo.md".toList, "/r/foo.md".toList, "foo.md",
          .ok "```---\nfoo: 1\n---\nx\n".toList⟩ none none,
      d.code = "H004" ∧ line_classified_code "```---\nfoo: 1\n---\nx\n".toList d.line = true) ∧
    (∃ d ∈ MarkdownChecker.checkDiags
        ⟨"foo.md".toList, "/r/foo.md".toList, "foo.md",
          .ok "```---\nlang: fr\n---\nx\n".toList⟩ none none,
      d.code = "H005" ∧ line_classified_code "```---\nlang: fr\n---\nx\n".toList d.line = true) := by
  decide

/-- C2 (amended): for every file and activation, every diagnostic whose
code is one of the rules checked on prose lines — H023 or H006, H009,
H013–H021, H024–H026, H028–H030 — lies on a content line that the
fenced-code classification marks as prose.  The original claim (all
rules except H007, H008, H010, H022) is refuted by
`C2_code_region_cex`: H003, H004, H005, H011 and H012 can report lines
classified as code. -/
theorem C2_code_region_amended (f : MDFile) (sel ex : Option (List String)) (d : Diag)
    (hd : d ∈ MarkdownChecker.checkDiags f sel ex)
    (hc : d.code ∈ ("H023" :: proseRuleCodes)) :
    ∃ content, f.content = .ok content ∧ line_classified_code content d.line = false := by
  unfold MarkdownChecker.checkDiags MarkdownChecker.check_all_rules at hd
  simp only [List.mem_append] at hd
  rcases hd with hd | hd
  · obtain ⟨hcode, _⟩ := MarkdownChecker.mem_check_filename_rules hd
    rcases hcode with hcode | hcode <;> rw [hcode] at hc <;> exact absurd hc (by decide)
  · split at hd
    · simp only [List.mem_singleton] at hd
      rw [hd] at hc
      have hc2 : ("H000" : String) ∈ ("H023" :: proseRuleCodes) := hc
      exact absurd hc2 (by decide)
    · rename_i content heq
      simp only [List.mem_append] at hd
      rcases hd with (hd | hd) | hd
      · obtain ⟨hcode, _⟩ := MarkdownChecker.mem_check_yaml_rules hd
        rcases hcode with hcode | hcode | hcode | hcode <;> rw [hcode] at hc <;>
          exact absurd hc (by decide)
      · obtain ⟨i, hi, hline, hmask⟩ := MarkdownChecker.content_rules_prose_line hd hc
        refine ⟨content, heq, ?_⟩
        have hY := MarkdownChecker.find_yaml_end_line_pos (pySplitlines content)
        unfold line_classified_code
        simp only []
        rw [if_pos (by omega :
          MarkdownChecker.find_yaml_end_line (pySplitlines content) ≤ d.line)]
        rw [show d.line - MarkdownChecker.find_yaml_end_line (pySplitlines content) = i by omega]
        exact hmask
      · obtain ⟨hcode, _⟩ := MarkdownChecker.mem_check_code_rules hd
        rw [hcode] at hc
        exact absurd hc (by decide)

/-- Witness for the amended C2: the H006 diagnostic of spec scenario 5
lies on a prose-classified line. -/
theorem C2_code_region_amended_witness :
    ((⟨"H006", "Incorrect word form used: \"markdown\" should be \"Markdown\"", 5, 6⟩ : Diag) ∈
      MarkdownChecker.checkDiags
        ⟨"foo.md".toList, "/r/foo.md".toList, "foo.md",
          .ok "---\nlang: en\n---\n\nUse `markdown` in code, but markdown outside.\n".toList⟩
        none none) ∧
    ("H006" ∈ ("H023" :: proseRuleCodes)) ∧
    (∃ content,
      (Except.ok "---\nlang: en\n---\n\nUse `markdown` in code, but markdown outside.\n".toList :
        Except String Str) = .ok content ∧
      line_classified_code content 5 = false) :=
  ⟨by decide, by decide,
    C2_code_region_amended
      ⟨"foo.md".toList, "/r/foo.md".toList, "foo.md",
        .ok "---\nlang: en\n---\n\nUse `markdown` in code, but markdown outside.\n".toList⟩
      none none
      ⟨"H006", "Incorrect word form used: \"markdown\" should be \"Markdown\"", 5, 6⟩
      (by decide) (by decide)⟩

namespace MarkdownChecker

theorem mem_check_content_rules_line_pos {all_lines : List Str} {Y : Nat}
    {rules : List String} {content lang : Str} {d : Diag}
    (h : d ∈ check_content_rules all_lines Y rules content lang) : 1 ≤ d.line := by
  unfold check_content_rules at h
  simp only [List.mem_append] at h
  rcases h with (h | h) | h
  · exact (mem_check_file_level_rules h).2.1
  · obtain ⟨_, h2⟩ := mem_ite_nil h
    obtain ⟨_, _, i, _, hline, _⟩ := mem_check_empty_line_between_paragraphs h2
    omega
  · simp only [List.mem_flatMap] at h
    obtain ⟨p, _, hmem⟩ := h
    simp only [List.mem_append] at hmem
    rcases hmem with hmem | hmem
    · have := (mem_check_all_lines_rules hmem).2
      omega
    · obtain ⟨_, hmem2⟩ := mem_ite_nil hmem
      have := (mem_check_non_code_line_rules hmem2).1
      omega

/-- Every diagnostic the checker emits with no line number also has no
column (the claim's case analysis is exhaustive on real output). -/
theorem checkDiags_line_zero_col_zero (f : MDFile) (sel ex : Option (List String))
    {d : Diag} (hd : d ∈ checkDiags f sel ex) (hl : d.line = 0) : d.col = 0 := by
  unfold checkDiags check_all_rules at hd
  simp only [List.mem_append] at hd
  rcases hd with hd | hd
  · exact (mem_check_filename_rules hd).2.2
  · split at hd
    · simp only [List.mem_singleton] at hd
      rw [hd]
    · simp only [List.mem_append] at hd
      rcases hd with (hd | hd) | hd
      · have := (mem_check_yaml_rules hd).2
        omega
      · have := mem_check_content_rules_line_pos hd
        omega
      · have := (mem_check_code_rules hd).2
        omega

end MarkdownChecker

/-- C4: every string `check` returns renders its diagnostic as
`<rel-path>:<line>:<col>: <CODE> <message>`, with `:<col>` omitted when
`col = 0` and both `:<line>` and `:<col>` omitted when `line = 0` and
`col = 0`; no other shape occurs. -/
theorem C4_diag_format (f : MDFile) (sel ex : Option (List String)) (s : String)
    (hs : s ∈ MarkdownChecker.check f sel ex) :
    ∃ d ∈ MarkdownChecker.checkDiags f sel ex,
      s = format_error f.relPath d ∧
      ((0 < d.line ∧ 0 < d.col ∧
          s = f.relPath ++ (":" ++ toString d.line ++ ":" ++ toString d.col ++ ": " ++
            d.code ++ " " ++ d.msg)) ∨
       (0 < d.line ∧ d.col = 0 ∧
          s = f.relPath ++ (":" ++ toString d.line ++ ": " ++ d.code ++ " " ++ d.msg)) ∨
       (d.line = 0 ∧ d.col = 0 ∧
          s = f.relPath ++ (": " ++ d.code ++ " " ++ d.msg))) := by
  unfold MarkdownChecker.check at hs
  simp only [List.mem_map] at hs
  obtain ⟨d, hd, hfmt⟩ := hs
  refine ⟨d, hd, hfmt.symm, ?_⟩
  obtain ⟨code, msg, line, col⟩ := d
  rcases Nat.eq_zero_or_pos line with hl | hl
  · have hc := MarkdownChecker.checkDiags_line_zero_col_zero f sel ex hd hl
    simp only at hl hc
    subst hl
    subst hc
    refine Or.inr (Or.inr ⟨rfl, rfl, ?_⟩)
    rw [← hfmt, format_error_no_line]
  · rcases Nat.eq_zero_or_pos col with hc | hc
    · subst hc
      refine Or.inr (Or.inl ⟨hl, rfl, ?_⟩)
      rw [← hfmt, format_error_line_only _ _ _ _ hl]
    · refine Or.inl ⟨hl, hc, ?_⟩
      rw [← hfmt, format_error_line_col _ _ _ _ _ hl hc]

/-- Witness for C4 at the concrete H005 diagnostic of scenario 2. -/
theorem C4_diag_format_witness :
    ("foo.md:2:7: H005 In YAML, lang is not set to en or ru" ∈
      MarkdownChecker.check
        ⟨"foo.md".toList, "/r/foo.md".toList, "foo.md",
          .ok "---\nlang: fr\n---\n# Content\n".toList⟩ none none) ∧
    (∃ d ∈ MarkdownChecker.checkDiags
        ⟨"foo.md".toList, "/r/foo.md".toList, "foo.md",
          .ok "---\nlang: fr\n---\n# Content\n".toList⟩ none none,
      "foo.md:2:7: H005 In YAML, lang is not set to en or ru" = format_error "foo.md" d ∧
      ((0 < d.line ∧ 0 < d.col ∧
          "foo.md:2:7: H005 In YAML, lang is not set to en or ru" =
            "foo.md" ++ (":" ++ toString d.line ++ ":" ++ toString d.col ++ ": " ++
              d.code ++ " " ++ d.msg)) ∨
       (0 < d.line ∧ d.col = 0 ∧
          "foo.md:2:7: H005 In YAML, lang is not set to en or ru" =
            "foo.md" ++ (":" ++ toString d.line ++ ": " ++ d.code ++ " " ++ d.msg)) ∨
       (d.line = 0 ∧ d.col = 0 ∧
          "foo.md:2:7: H005 In YAML, lang is not set to en or ru" =
            "foo.md" ++ (": " ++ d.code ++ " " ++ d.msg)))) :=
  ⟨by decide,
    C4_diag_format
      ⟨"foo.md".toList, "/r/foo.md".toList, "foo.md",
        .ok "---\nlang: fr\n---\n# Content\n".toList⟩ none none
      "foo.md:2:7: H005 In YAML, lang is not set to en or ru" (by decide)⟩

/-- C8: `check` returns normally on every input; when reading the file
fails, the output carries exactly one H000 diagnostic, whose message is
`Exception error: <reason>`, and the corresponding formatted string
`<rel-path>: H000 Exception error: <reason>` appears in the result. -/
theorem C8_read_failure (f : MDFile) (sel ex : Option (List String)) (reason : String)
    (hf : f.content = .error reason) :
    (MarkdownChecker.checkDiags f sel ex).filter (fun d => d.code == "H000") =
      [⟨"H000", "Exception error: " ++ reason, 0, 0⟩] ∧
    f.relPath ++ (": " ++ "H000" ++ " " ++ ("Exception error: " ++ reason)) ∈
      MarkdownChecker.check f sel ex := by
  have hmem : (⟨"H000", "Exception error: " ++ reason, 0, 0⟩ : Diag) ∈
      MarkdownChecker.checkDiags f sel ex := by
    unfold MarkdownChecker.checkDiags MarkdownChecker.check_all_rules
    rw [hf]
    simp
  constructor
  · unfold MarkdownChecker.checkDiags MarkdownChecker.check_all_rules
    rw [hf]
    rw [List.filter_append]
    have h1 : (MarkdownChecker.check_filename_rules f
        (MarkdownChecker.determine_active_rules sel ex)).filter
        (fun d => d.code == "H000") = [] := by
      rw [List.filter_eq_nil]
      intro d hd
      rcases (MarkdownChecker.mem_check_filename_rules hd).1 with h | h <;> simp [h]
    rw [h1]
    rfl
  · unfold MarkdownChecker.check
    refine List.mem_map.mpr ⟨_, hmem, ?_⟩
    exact format_error_no_line f.relPath "H000" ("Exception error: " ++ reason)

/-- Witness for C8 on a file whose read fails with reason "boom". -/
theorem C8_read_failure_witness :
    ((⟨"foo.md".toList, "/r/foo.md".toList, "foo.md", .error "boom"⟩ : MDFile).content
        = .error "boom") ∧
    ((MarkdownChecker.checkDiags
        ⟨"foo.md".toList, "/r/foo.md".toList, "foo.md", .error "boom"⟩ none none).filter
        (fun d => d.code == "H000") =
      [⟨"H000", "Exception error: " ++ "boom", 0, 0⟩] ∧
     "foo.md" ++ (": " ++ "H000" ++ " " ++ ("Exception error: " ++ "boom")) ∈
      MarkdownChecker.check
        ⟨"foo.md".toList, "/r/foo.md".toList, "foo.md", .error "boom"⟩ none none) :=
  ⟨rfl, C8_read_failure _ none none "boom" rfl⟩

/-- The first index satisfying `p` (what `findIdx?` returns) is a
genuine first occurrence. -/
theorem findIdx_first_spec (p : Char → Bool) :
    ∀ l : List Char, l.any p = true →
      ∃ k, l.findIdx? p = some k ∧ k < l.length ∧ p (l.getD k ' ') = true ∧
        ∀ j, j < k → p (l.getD j ' ') = false
  | [], h => by simp at h
  | c :: rest, h => by
      cases hc : p c with
      | true =>
          refine ⟨0, ?_, Nat.succ_pos _, by simpa using hc,
            fun j hj => absurd hj (Nat.not_lt_zero j)⟩
          rw [List.findIdx?_cons, if_pos hc]
      | false =>
          have hr : rest.any p = true := by
            simp only [List.any_cons, hc, Bool.false_or] at h
            exact h
          obtain ⟨k, hfind, hlt, hp, hall⟩ := findIdx_first_spec p rest hr
          refine ⟨k + 1, ?_, Nat.succ_lt_succ hlt, by simpa using hp, ?_⟩
          · rw [List.findIdx?_cons, if_neg (by simp [hc]), List.findIdx?_succ, hfind]
            rfl
          · intro j hj
            cases j with
            | zero => simpa using hc
            | succ j => simpa using hall j (Nat.lt_of_succ_lt_succ hj)

namespace PythonChecker

/-- On a line containing a Russian letter, `_find_russian_letters_position`
returns one more than the 0-based index of the first Russian letter. -/
theorem frlp_spec (l : Str) (h : has_russian_letters l = true) :
    ∃ k, k < l.length ∧ isRussianChar (l.getD k ' ') = true ∧
      (∀ j, j < k → isRussianChar (l.getD j ' ') = false) ∧
      find_russian_letters_position l = k + 1 := by
  obtain ⟨k, hfind, hlt, hp, hall⟩ := findIdx_first_spec isRussianChar l h
  refine ⟨k, hlt, hp, hall, ?_⟩
  unfold find_russian_letters_position
  rw [hfind]
  rfl

theorem mem_old_style_scan :
    ∀ {lines : List Str} {k : Nat} {b : Bool} {d : Diag},
      d ∈ old_style_scan lines k b → d.code = "HP002"
  | [], _, _, _, h => by simp [old_style_scan] at h
  | line :: rest, k, b, d, h => by
      simp only [old_style_scan] at h
      split_ifs at h <;>
        first
          | exact mem_old_style_scan h
          | (simp only [List.mem_append] at h
             rcases h with h | h
             · simp only [List.mem_flatMap] at h
               obtain ⟨kw, _, hm⟩ := h
               split_ifs at hm <;>
                 first
                   | (simp only [List.mem_singleton] at hm; subst hm; rfl)
                   | simp at hm
             · exact mem_old_style_scan h)

theorem mem_hp001_part {rules : List String} :
    ∀ {t : Nat} {lines : List Str} {d : Diag},
      d ∈ (List.enumFrom t lines).flatMap (fun (p : Nat × Str) =>
        let line_num := p.1 + 1
        let line := p.2
        if rules.contains "HP001" && !should_ignore_line line "HP001"
            && has_russian_letters line then
          [(⟨"HP001", ruleText "HP001", line_num,
            find_russian_letters_position line⟩ : Diag)]
        else []) →
      d.code = "HP001" ∧ t + 1 ≤ d.line := by
  intro t lines
  induction lines generalizing t with
  | nil => intro d h; simp at h
  | cons c rest ih =>
      intro d h
      rw [List.enumFrom_cons, List.flatMap_cons] at h
      simp only [List.mem_append] at h
      rcases h with h | h
      · obtain ⟨hc, h2⟩ := MarkdownChecker.mem_ite_nil h
        simp only [List.mem_singleton] at h2
        subst h2
        exact ⟨rfl, Nat.le_refl _⟩
      · obtain ⟨h1, h2⟩ := ih h
        exact ⟨h1, by omega⟩

theorem hp001_filter_aux (rules : List String) (hr : rules.contains "HP001" = true) :
    ∀ (lines : List Str) (s n : Nat), n < lines.length →
      ((List.enumFrom s lines).flatMap (fun (p : Nat × Str) =>
        let line_num := p.1 + 1
        let line := p.2
        if rules.contains "HP001" && !should_ignore_line line "HP001"
            && has_russian_letters line then
          [(⟨"HP001", ruleText "HP001", line_num,
            find_russian_letters_position line⟩ : Diag)]
        else [])).filter (fun d => d.code == "HP001" && d.line == s + n + 1) =
      (if !should_ignore_line (lines.getD n []) "HP001"
          && has_russian_letters (lines.getD n []) then
        [⟨"HP001", ruleText "HP001", s + n + 1,
          find_russian_letters_position (lines.getD n [])⟩]
      else [])
  | [], s, n, hn => by simp at hn
  | c :: rest, s, n, hn => by
      rw [List.enumFrom_cons, List.flatMap_cons, List.filter_append]
      cases n with
      | zero =>
          have htail : List.filter (fun d => d.code == "HP001" && d.line == s + 0 + 1)
              ((List.enumFrom (s + 1) rest).flatMap (fun (p : Nat × Str) =>
                let line_num := p.1 + 1
                let line := p.2
                if rules.contains "HP001" && !should_ignore_line line "HP001"
                    && has_russian_letters line then
                  [(⟨"HP001", ruleText "HP001", line_num,
                    find_russian_letters_position line⟩ : Diag)]
                else [])) = [] := by
            rw [List.filter_eq_nil_iff]
            intro d hd
            obtain ⟨_, hline⟩ := mem_hp001_part hd
            simp only [Bool.and_eq_true, beq_iff_eq]
            rintro ⟨-, h2⟩
            omega
          rw [htail, List.append_nil]
          show List.filter (fun d => d.code == "HP001" && d.line == s + 0 + 1)
              (if (rules.contains "HP001" && !should_ignore_line c "HP001"
                  && has_russian_letters c) = true then
                [(⟨"HP001", ruleText "HP001", s + 1,
                  find_russian_letters_position c⟩ : Diag)]
              else []) =
            if (!should_ignore_line c "HP001" && has_russian_letters c) = true then
              [(⟨"HP001", ruleText "HP001", s + 0 + 1,
                find_russian_letters_position c⟩ : Diag)]
            else []
          rw [hr]
          simp only [Bool.true_and]
          split_ifs with hb
          · rw [List.filter_cons, if_pos (by simp)]
            rfl
          · rfl
      | succ m =>
          have hhead : List.filter (fun d => d.code == "HP001" && d.line == s + (m + 1) + 1)
              ((fun (p : Nat × Str) =>
                let line_num := p.1 + 1
                let line := p.2
                if rules.contains "HP001" && !should_ignore_line line "HP001"
                    && has_russian_letters line then
                  [(⟨"HP001", ruleText "HP001", line_num,
                    find_russian_letters_position line⟩ : Diag)]
                else []) (s, c)) = [] := by
            show List.filter (fun d => d.code == "HP001" && d.line == s + (m + 1) + 1)
                (if (rules.contains "HP001" && !should_ignore_line c "HP001"
                    && has_russian_letters c) = true then
                  [(⟨"HP001", ruleText "HP001", s + 1,
                    find_russian_letters_position c⟩ : Diag)]
                else []) = []
            split_ifs
            · rw [List.filter_cons,
                if_neg (by simp only [Bool.and_eq_true, beq_iff_eq]; rintro ⟨-, h2⟩; omega)]
              rfl
            · rfl
          rw [hhead, List.nil_append]
          have he : s + (m + 1) + 1 = (s + 1) + m + 1 := by omega
          rw [he, List.getD_cons_succ]
          exact hp001_filter_aux rules hr rest (s + 1) m (by
            simp only [List.length_cons] at hn
            omega)

end PythonChecker

/-- C9: in the source linter, a line (here line `n + 1`, 1-based)
containing a Russian letter yields no HP001 diagnostic when it matches
the per-line `# ignore:` directive for HP001, and otherwise exactly one,
whose column is one more than the 0-based index of the first Russian
letter on the line. -/
theorem C9_hp001_per_line (lines : List Str) (rules : List String) (n : Nat)
    (hr : rules.contains "HP001" = true) (hn : n < lines.length)
    (hcyr : PythonChecker.has_russian_letters (lines.getD n []) = true) :
    (PythonChecker.check_content_rules lines rules).filter
        (fun d => d.code == "HP001" && d.line == n + 1) =
      (if PythonChecker.should_ignore_line (lines.getD n []) "HP001" then []
       else [⟨"HP001", PythonChecker.ruleText "HP001", n + 1,
         PythonChecker.find_russian_letters_position (lines.getD n [])⟩]) ∧
    ∃ k, k < (lines.getD n []).length ∧
      isRussianChar ((lines.getD n []).getD k ' ') = true ∧
      (∀ j, j < k → isRussianChar ((lines.getD n []).getD j ' ') = false) ∧
      PythonChecker.find_russian_letters_position (lines.getD n []) = k + 1 := by
  constructor
  · unfold PythonChecker.check_content_rules
    rw [List.filter_append]
    have h2 : List.filter (fun d => d.code == "HP001" && d.line == n + 1)
        (if rules.contains "HP002" = true then
          PythonChecker.check_old_style_docstrings lines else []) = [] := by
      rw [List.filter_eq_nil_iff]
      intro d hd
      obtain ⟨_, hd2⟩ := MarkdownChecker.mem_ite_nil hd
      have hc := PythonChecker.mem_old_style_scan
        (show d ∈ PythonChecker.old_style_scan lines 1 false from hd2)
      simp only [Bool.and_eq_true, beq_iff_eq, hc]
      rintro ⟨h1, -⟩
      exact absurd h1 (by decide)
    rw [h2, List.append_nil]
    rw [show lines.enum = List.enumFrom 0 lines from rfl]
    have h1 := PythonChecker.hp001_filter_aux rules hr lines 0 n hn
    simp only [Nat.zero_add] at h1
    rw [h1]
    cases hig : PythonChecker.should_ignore_line (lines.getD n []) "HP001" <;>
      simp [hig, hcyr] <;> simpa using hcyr
  · exact PythonChecker.frlp_spec _ hcyr

/-- Witness for C9 on the single line `# привет`. -/
theorem C9_hp001_per_line_witness :
    (PythonChecker.all_rules.contains "HP001" = true) ∧
    (0 < ["# привет".toList].length) ∧
    (PythonChecker.has_russian_letters (["# привет".toList].getD 0 []) = true) ∧
    ((PythonChecker.check_content_rules ["# привет".toList]
          PythonChecker.all_rules).filter
        (fun d => d.code == "HP001" && d.line == 0 + 1) =
      (if PythonChecker.should_ignore_line (["# привет".toList].getD 0 []) "HP001" then []
       else [⟨"HP001", PythonChecker.ruleText "HP001", 0 + 1,
         PythonChecker.find_russian_letters_position
           (["# привет".toList].getD 0 [])⟩]) ∧
     ∃ k, k < (["# привет".toList].getD 0 []).length ∧
       isRussianChar ((["# привет".toList].getD 0 []).getD k ' ') = true ∧
       (∀ j, j < k → isRussianChar ((["# привет".toList].getD 0 []).getD j ' ') = false) ∧
       PythonChecker.find_russian_letters_position
         (["# привет".toList].getD 0 []) = k + 1) :=
  ⟨by decide, by decide, by decide,
    C9_hp001_per_line ["# привет".toList] PythonChecker.all_rules 0
      (by decide) (by decide) (by decide)⟩

theorem check_directory_eq (sel ex : Option (List String)) :
    ∀ (l : List MDFile) (acc : List (String × List String)),
      l.foldl (fun results md =>
        let errors := MarkdownChecker.check md sel ex
        if !errors.isEmpty then results ++ [(String.mk md.pathStr, errors)]
        else results) acc =
      acc ++ l.filterMap (fun md =>
        if (MarkdownChecker.check md sel ex).isEmpty then none
        else some (String.mk md.pathStr, MarkdownChecker.check md sel ex))
  | [], acc => by simp
  | c :: rest, acc => by
      rw [List.foldl_cons, check_directory_eq sel ex rest, List.filterMap_cons]
      cases he : (MarkdownChecker.check c sel ex).isEmpty <;> simp [he]

theorem lookup_none_of_keys (k : String) :
    ∀ (l : List (String × List String)), (∀ pr ∈ l, pr.1 ≠ k) → l.lookup k = none
  | [], _ => rfl
  | (k', v) :: rest, h => by
      have hk : (k == k') = false := by
        simp only [beq_eq_false_iff_ne, ne_eq]
        exact fun hc => h (k', v) (List.mem_cons_self _ _) hc.symm
      simp only [List.lookup, hk]
      exact lookup_none_of_keys k rest (fun pr hpr => h pr (List.mem_cons_of_mem _ hpr))

theorem mem_filterMap_check_key (sel ex : Option (List String)) {l : List MDFile}
    {pr : String × List String}
    (h : pr ∈ l.filterMap (fun md2 =>
      if (MarkdownChecker.check md2 sel ex).isEmpty then none
      else some (String.mk md2.pathStr, MarkdownChecker.check md2 sel ex))) :
    ∃ md ∈ l, pr.1 = String.mk md.pathStr ∧ pr.2 = MarkdownChecker.check md sel ex ∧
      (MarkdownChecker.check md sel ex).isEmpty = false := by
  simp only [List.mem_filterMap] at h
  obtain ⟨md, hmd, hf⟩ := h
  by_cases he : (MarkdownChecker.check md sel ex).isEmpty = true
  · rw [if_pos he] at hf
    exact absurd hf (by simp)
  · rw [if_neg he] at hf
    injection hf with hf
    subst hf
    exact ⟨md, hmd, rfl, rfl, Bool.eq_false_iff.mpr he⟩

theorem lookup_filterMap_check (sel ex : Option (List String)) :
    ∀ (l : List MDFile),
      (l.map (fun md => String.mk md.pathStr)).Nodup →
      ∀ md ∈ l,
        (l.filterMap (fun md2 =>
          if (MarkdownChecker.check md2 sel ex).isEmpty then none
          else some (String.mk md2.pathStr, MarkdownChecker.check md2 sel ex))).lookup
            (String.mk md.pathStr) =
          if (MarkdownChecker.check md sel ex).isEmpty then none
          else some (MarkdownChecker.check md sel ex)
  | [], _, md, hmd => absurd hmd (List.not_mem_nil md)
  | c :: rest, hnd, md, hmd => by
      rw [List.map_cons, List.nodup_cons] at hnd
      obtain ⟨hnotin, hndrest⟩ := hnd
      rw [List.filterMap_cons]
      rcases List.mem_cons.mp hmd with heq | hmem
      · subst heq
        cases he : (MarkdownChecker.check md sel ex).isEmpty
        · simp only [he, Bool.false_eq_true, if_false, if_neg]
          simp only [List.lookup, beq_self_eq_true]
        · simp only [he, if_true, if_pos]
          apply lookup_none_of_keys
          intro pr hpr
          obtain ⟨md2, hmd2, hk, -, -⟩ := mem_filterMap_check_key sel ex hpr
          rw [hk]
          intro hcontra
          exact hnotin (hcontra ▸ List.mem_map_of_mem _ hmd2)
      · have hne : (String.mk md.pathStr == String.mk c.pathStr) = false := by
          rw [beq_eq_false_iff_ne]
          intro hcontra
          exact hnotin (hcontra ▸ List.mem_map_of_mem _ hmem)
        cases he : (MarkdownChecker.check c sel ex).isEmpty
        · simp only [he, Bool.false_eq_true, if_false]
          simp only [List.lookup, hne]
          exact lookup_filterMap_check sel ex rest hndrest md hmem
        · simp only [he, if_true]
          exact lookup_filterMap_check sel ex rest hndrest md hmem

/-- C10: as long as the found files have pairwise distinct path strings
(true of a real directory tree), the map `check_directory` returns has
an entry under a found file's path exactly when `check` of that file is
non-empty, the stored value is that diagnostic list, and every entry of
the map arises this way from a found file. -/
theorem C10_check_directory_map (e : FSEntry) (sel ex aip : Option (List String))
    (hnd : ((find_markdown_files e aip).map (fun md => String.mk md.pathStr)).Nodup) :
    (∀ md ∈ find_markdown_files e aip,
      (MarkdownChecker.check_directory e sel ex aip).lookup (String.mk md.pathStr) =
        (if (MarkdownChecker.check md sel ex).isEmpty then none
         else some (MarkdownChecker.check md sel ex))) ∧
    (∀ pr ∈ MarkdownChecker.check_directory e sel ex aip,
      ∃ md ∈ find_markdown_files e aip,
        pr.1 = String.mk md.pathStr ∧ pr.2 = MarkdownChecker.check md sel ex ∧
        (MarkdownChecker.check md sel ex).isEmpty = false) := by
  have heq : MarkdownChecker.check_directory e sel ex aip =
      (find_markdown_files e aip).filterMap (fun md =>
        if (MarkdownChecker.check md sel ex).isEmpty then none
        else some (String.mk md.pathStr, MarkdownChecker.check md sel ex)) := by
    unfold MarkdownChecker.check_directory
    rw [check_directory_eq, List.nil_append]
  constructor
  · intro md hmd
    rw [heq]
    exact lookup_filterMap_check sel ex _ hnd md hmd
  · intro pr hpr
    rw [heq] at hpr
    exact mem_filterMap_check_key sel ex hpr

/-- Witness for C10 on a two-file tree: one file checks clean, one has
a read error. -/
theorem C10_check_directory_map_witness :
    ((find_markdown_files
        (.dir "r".toList [
          .file "a.md".toList
            ⟨"a.md".toList, "/r/a.md".toList, "a.md", .ok "---\nlang: en\n---\n\n# T\n".toList⟩,
          .file "b.md".toList
            ⟨"b.md".toList, "/r/b.md".toList, "b.md", .error "boom"⟩]) none).map
        (fun md => String.mk md.pathStr)).Nodup ∧
    ((∀ md ∈ find_markdown_files
        (.dir "r".toList [
          .file "a.md".toList
            ⟨"a.md".toList, "/r/a.md".toList, "a.md", .ok "---\nlang: en\n---\n\n# T\n".toList⟩,
          .file "b.md".toList
            ⟨"b.md".toList, "/r/b.md".toList, "b.md", .error "boom"⟩]) none,
      (MarkdownChecker.check_directory
        (.dir "r".toList [
          .file "a.md".toList
            ⟨"a.md".toList, "/r/a.md".toList, "a.md", .ok "---\nlang: en\n---\n\n# T\n".toList⟩,
          .file "b.md".toList
            ⟨"b.md".toList, "/r/b.md".toList, "b.md", .error "boom"⟩]) none none none).lookup
          (String.mk md.pathStr) =
        (if (MarkdownChecker.check md none none).isEmpty then none
         else some (MarkdownChecker.check md none none))) ∧
    (∀ pr ∈ MarkdownChecker.check_directory
        (.dir "r".toList [
          .file "a.md".toList
            ⟨"a.md".toList, "/r/a.md".toList, "a.md", .ok "---\nlang: en\n---\n\n# T\n".toList⟩,
          .file "b.md".toList
            ⟨"b.md".toList, "/r/b.md".toList, "b.md", .error "boom"⟩]) none none none,
      ∃ md ∈ find_markdown_files
        (.dir "r".toList [
          .file "a.md".toList
            ⟨"a.md".toList, "/r/a.md".toList, "a.md", .ok "---\nlang: en\n---\n\n# T\n".toList⟩,
          .file "b.md".toList
            ⟨"b.md".toList, "/r/b.md".toList, "b.md", .error "boom"⟩]) none,
        pr.1 = String.mk md.pathStr ∧ pr.2 = MarkdownChecker.check md none none ∧
        (MarkdownChecker.check md none none).isEmpty = false)) :=
  ⟨by decide,
    C10_check_directory_map
      (.dir "r".toList [
        .file "a.md".toList
          ⟨"a.md".toList, "/r/a.md".toList, "a.md", .ok "---\nlang: en\n---\n\n# T\n".toList⟩,
        .file "b.md".toList
          ⟨"b.md".toList, "/r/b.md".toList, "b.md", .error "boom"⟩]) none none none
      (by decide)⟩

theorem should_ignore_eq_spec (n : Str) (extra : Option (List String)) :
    should_ignore_path n extra = spec_ignored_dir n extra := by
  unfold should_ignore_path spec_ignored_dir
  cases hs : startsWith n ".".toList <;> simp [hs]

mutual

theorem find_files_iff : ∀ (t : FSEntry) (extra : Option (List String)) (d : MDFile),
    d ∈ find_markdown_files t extra ↔ SpecYields t extra d
  | .file n dd, extra, d => by
      constructor
      · intro h
        exact absurd h (List.not_mem_nil d)
      · intro h
        cases h
  | .dir name children, extra, d => by
      constructor
      · intro h
        unfold find_markdown_files at h
        split_ifs at h with hig
        · simp at h
        · have hig' : spec_ignored_dir name extra = false := by
            rw [← should_ignore_eq_spec]
            exact Bool.eq_false_iff.mpr hig
          rcases (find_children_iff children extra d).mp h with
            ⟨fname, hmem, hel⟩ | ⟨sub, hsub, hsubig, hy⟩
          · exact SpecYields.here name children extra fname d hig' hmem hel
          · exact SpecYields.deeper name children extra sub d hig' hsub hsubig hy
      · intro h
        cases h with
        | here _ _ _ fname _ hig hmem hel =>
            unfold find_markdown_files
            rw [if_neg (by rw [should_ignore_eq_spec, hig]; exact Bool.false_ne_true)]
            exact (find_children_iff children extra d).mpr (Or.inl ⟨fname, hmem, hel⟩)
        | deeper _ _ _ sub _ hig hsub hsubig hy =>
            unfold find_markdown_files
            rw [if_neg (by rw [should_ignore_eq_spec, hig]; exact Bool.false_ne_true)]
            exact (find_children_iff children extra d).mpr (Or.inr ⟨sub, hsub, hsubig, hy⟩)

theorem find_children_iff : ∀ (l : List FSEntry) (extra : Option (List String)) (d : MDFile),
    d ∈ find_markdown_children l extra ↔
      ((∃ fname, FSEntry.file fname d ∈ l ∧ eligible_markdown_name fname = true) ∨
       (∃ sub, sub ∈ l ∧ spec_ignored_dir sub.entryName extra = false ∧
         SpecYields sub extra d))
  | [], extra, d => by
      simp [find_markdown_children]
  | .file fname dd :: rest, extra, d => by
      unfold find_markdown_children
      constructor
      · intro h
        rcases List.mem_append.mp h with h | h
        · obtain ⟨hc, h2⟩ := MarkdownChecker.mem_ite_nil h
          simp only [List.mem_singleton] at h2
          subst h2
          exact Or.inl ⟨fname, List.mem_cons_self _ _,
            show eligible_markdown_name fname = true from hc⟩
        · rcases (find_children_iff rest extra d).mp h with
            ⟨fn, hm, he⟩ | ⟨sub, hs, hsi, hy⟩
          · exact Or.inl ⟨fn, List.mem_cons_of_mem _ hm, he⟩
          · exact Or.inr ⟨sub, List.mem_cons_of_mem _ hs, hsi, hy⟩
      · intro h
        rcases h with ⟨fn, hm, he⟩ | ⟨sub, hs, hsi, hy⟩
        · rcases List.mem_cons.mp hm with heq | hm2
          · injection heq with hf hd
            apply List.mem_append_left
            split_ifs with hC
            · simp [hd]
            · exact absurd (show eligible_markdown_name fname = true from hf ▸ he) hC
          · exact List.mem_append_right _
              ((find_children_iff rest extra d).mpr (Or.inl ⟨fn, hm2, he⟩))
        · rcases List.mem_cons.mp hs with heq | hs2
          · subst heq
            cases hy
          · exact List.mem_append_right _
              ((find_children_iff rest extra d).mpr (Or.inr ⟨sub, hs2, hsi, hy⟩))
  | .dir dname dch :: rest, extra, d => by
      unfold find_markdown_children
      constructor
      · intro h
        rcases List.mem_append.mp h with h | h
        · obtain ⟨hnig, h2⟩ := MarkdownChecker.mem_ite_nil h
          have hy := (find_files_iff (.dir dname dch) extra d).mp h2
          refine Or.inr ⟨.dir dname dch, List.mem_cons_self _ _, ?_, hy⟩
          show spec_ignored_dir dname extra = false
          rw [← should_ignore_eq_spec]
          rcases Bool.eq_false_or_eq_true (should_ignore_path dname extra) with hb | hb
          · rw [hb] at hnig
            simp at hnig
          · exact hb
        · rcases (find_children_iff rest extra d).mp h with
            ⟨fn, hm, he⟩ | ⟨sub, hs, hsi, hy⟩
          · exact Or.inl ⟨fn, List.mem_cons_of_mem _ hm, he⟩
          · exact Or.inr ⟨sub, List.mem_cons_of_mem _ hs, hsi, hy⟩
      · intro h
        rcases h with ⟨fn, hm, he⟩ | ⟨sub, hs, hsi, hy⟩
        · rcases List.mem_cons.mp hm with heq | hm2
          · exact absurd heq (by intro hc; cases hc)
          · exact List.mem_append_right _
              ((find_children_iff rest extra d).mpr (Or.inl ⟨fn, hm2, he⟩))
        · rcases List.mem_cons.mp hs with heq | hs2
          · subst heq
            simp only [FSEntry.entryName] at hsi
            apply List.mem_append_left
            split_ifs with hC
            · exact (find_files_iff (.dir dname dch) extra d).mpr hy
            · exact absurd (show (!should_ignore_path dname extra) = true by
                rw [should_ignore_eq_spec, hsi]
                rfl) hC
          · exact List.mem_append_right _
              ((find_children_iff rest extra d).mpr (Or.inr ⟨sub, hs2, hsi, hy⟩))

end

/-- C5 counterexample: `find_markdown_files` preserves the stored
(`iterdir`) order, which need not be lexicographic: a directory whose
entries arrive as `b.md`, `a.md` is yielded in that order. -/
theorem C5_order_cex :
    (find_markdown_files
        (.dir "r".toList [
          .file "b.md".toList ⟨"b.md".toList, "/r/b.md".toList, "b.md", .ok []⟩,
          .file "a.md".toList ⟨"a.md".toList, "/r/a.md".toList, "a.md", .ok []⟩]) none).map
        MDFile.name = ["b.md".toList, "a.md".toList] ∧
    lexLe "b.md".toList "a.md".toList = false := by decide

/-- C5 amended: `find_markdown_files` yields exactly the files reachable
by taking, in each visited directory, the entries whose suffix is `.md`
or `.markdown` case-insensitively and recursing only into
sub-directories that are neither on the ignore list nor dot-prefixed;
the order, however, is the depth-first `iterdir` order, not
lexicographic. -/
theorem C5_find_markdown_amended (t : FSEntry) (extra : Option (List String)) (d : MDFile) :
    d ∈ find_markdown_files t extra ↔ SpecYields t extra d :=
  find_files_iff t extra d

namespace MarkdownChecker

theorem C1_filter_block (r act : List String) (c : String) (L : List Diag)
    (hact : act.contains c = true)
    (hne : (c == "H000") = false)
    (hL : ∀ d ∈ L, d.code = c) :
    (if r.contains c = true then L else []) =
      (if act.contains c = true then L else []).filter
        (fun d => d.code == "H000" || r.contains d.code) := by
  rw [if_pos hact]
  cases hc : r.contains c
  · rw [if_neg (by simp)]
    symm
    rw [List.filter_eq_nil_iff]
    intro d hd
    rw [hL d hd]
    simp only [hne, Bool.false_or, hc]
    exact Bool.false_ne_true
  · rw [if_pos rfl]
    symm
    rw [List.filter_eq_self]
    intro d hd
    rw [hL d hd]
    rw [hc]
    simp

theorem C1_filter_block_cond (r act : List String) (c : String) (cond : Bool) (L : List Diag)
    (hact : act.contains c = true)
    (hne : (c == "H000") = false)
    (hL : ∀ d ∈ L, d.code = c) :
    (if (r.contains c && cond) = true then L else []) =
      (if (act.contains c && cond) = true then L else []).filter
        (fun d => d.code == "H000" || r.contains d.code) := by
  cases cond
  · simp
  · rw [Bool.and_true, Bool.and_true]
    exact C1_filter_block r act c L hact hne hL

theorem C1_filename (f : MDFile) (r : List String) :
    check_filename_rules f r =
      (check_filename_rules f all_rules).filter
        (fun d => d.code == "H000" || r.contains d.code) := by
  unfold check_filename_rules
  rw [List.filter_append]
  rw [C1_filter_block_cond r all_rules "H001" (containsSub f.name " ".toList)
      [⟨"H001", ruleText "H001", 0, 0⟩] (by decide) (by decide)
      (by intro d hd; simp only [List.mem_singleton] at hd; subst hd; rfl),
    C1_filter_block_cond r all_rules "H002" (containsSub f.pathStr " ".toList)
      [⟨"H002", ruleText "H002", 0, 0⟩] (by decide) (by decide)
      (by intro d hd; simp only [List.mem_singleton] at hd; subst hd; rfl)]

theorem C1_all_lines (line : Str) (n : Nat) (r : List String) :
    check_all_lines_rules line n r =
      (check_all_lines_rules line n all_rules).filter
        (fun d => d.code == "H000" || r.contains d.code) := by
  unfold check_all_lines_rules
  simp only [List.filter_append]
  rw [C1_filter_block_cond r all_rules "H008" (decide (line ≠ pyRstrip line))
      [⟨"H008", ruleText "H008", n, (pyRstrip line).length + 1⟩] (by decide) (by decide)
      (by intro d hd; simp only [List.mem_singleton] at hd; subst hd; rfl),
    C1_filter_block_cond r all_rules "H010" (containsSub line "\t".toList)
      [⟨"H010", ruleText "H010", n, (findSub line "\t".toList).getD 0 + 1⟩]
      (by decide) (by decide)
      (by intro d hd; simp only [List.mem_singleton] at hd; subst hd; rfl),
    C1_filter_block_cond r all_rules "H022" (containsSub line " ".toList)
      [⟨"H022", ruleText "H022", n, (findSub line " ".toList).getD 0 + 1⟩]
      (by decide) (by decide)
      (by intro d hd; simp only [List.mem_singleton] at hd; subst hd; rfl)]

end MarkdownChecker

namespace MarkdownChecker

theorem C1_non_code (line : Str) (line_num : Nat) (content_lines : List Str)
    (line_index : Nat) (code_block_info : List (Str × Bool)) (r : List String)
    (yaml_end_line : Nat) (lang : Str) :
    check_non_code_line_rules line line_num content_lines line_index code_block_info
      r yaml_end_line lang =
    (check_non_code_line_rules line line_num content_lines line_index code_block_info
      all_rules yaml_end_line lang).filter
        (fun d => d.code == "H000" || r.contains d.code) := by
  simp only [check_non_code_line_rules, List.filter_append]
  rw [C1_filter_block r all_rules "H006"
      (check_incorrect_words line (clean_line_of line) line_num) (by decide) (by decide)
      (fun d hd => (mem_check_incorrect_words hd).1),
    C1_filter_block r all_rules "H009"
      (check_double_spaces line line_num content_lines line_index) (by decide) (by decide)
      (fun d hd => (mem_check_double_spaces hd).1),
    C1_filter_block r all_rules "H013"
      (check_colon_before_code line line_num line_index code_block_info)
      (by decide) (by decide)
      (fun d hd => (mem_check_colon_before_code hd).1),
    C1_filter_block r all_rules "H014"
      (check_colon_before_image line line_num content_lines line_index)
      (by decide) (by decide)
      (fun d hd => (mem_check_colon_before_image hd).1),
    C1_filter_block r all_rules "H015"
      (check_space_before_punctuation line line_num) (by decide) (by decide)
      (fun d hd => (mem_check_space_before_punctuation hd).1),
    C1_filter_block_cond r all_rules "H016" (decide (line_num ≥ yaml_end_line))
      (check_dash_usage line (clean_line_of line) line_num) (by decide) (by decide)
      (fun d hd => (mem_check_dash_usage hd).1),
    C1_filter_block_cond r all_rules "H017"
      (containsSub (clean_line_of line) "...".toList)
      [⟨"H017", ruleText "H017" ++ ": \"...\" should be \"…\"", line_num,
        if containsSub line "...".toList then (findSub line "...".toList).getD 0 + 1
        else (findSub (clean_line_of line) "...".toList).getD 0 + 1⟩]
      (by decide) (by decide)
      (by intro d hd; simp only [List.mem_singleton] at hd; subst hd; rfl),
    C1_filter_block_cond r all_rules "H017"
      (endsWith (pyRstrip (clean_line_of line)) "…".toList)
      [⟨"H017", ruleText "H017" ++ ": ellipsis \"…\" at end of line", line_num,
        ((rfindChar (pyRstrip line) '…').map (· + 1)).getD 0⟩]
      (by decide) (by decide)
      (by intro d hd; simp only [List.mem_singleton] at hd; subst hd; rfl),
    C1_filter_block r all_rules "H018"
      (check_quotes line (clean_line_of line) line_num) (by decide) (by decide)
      (fun d hd => (mem_check_quotes hd).1),
    C1_filter_block r all_rules "H019"
      (check_html_tags line line_num) (by decide) (by decide)
      (fun d hd => (mem_check_html_tags hd).1),
    C1_filter_block r all_rules "H020"
      (check_image_caption line line_num) (by decide) (by decide)
      (fun d hd => (mem_check_image_caption hd).1),
    C1_filter_block r all_rules "H021"
      (check_lowercase_after_punctuation line (clean_line_of line) line_num)
      (by decide) (by decide)
      (fun d hd => (mem_check_lowercase_after_punctuation hd).1),
    C1_filter_block_cond r all_rules "H024" (decide (lang = "ru".toList))
      (check_russian_polite_pronouns line line_num) (by decide) (by decide)
      (fun d hd => (mem_check_russian_polite_pronouns hd).1),
    C1_filter_block r all_rules "H025"
      (check_x_instead_of_times line line_num) (by decide) (by decide)
      (fun d hd => (mem_check_x_instead_of_times hd).1),
    C1_filter_block r all_rules "H026"
      (check_image_not_at_line_start line line_num) (by decide) (by decide)
      (fun d hd => (mem_check_image_not_at_line_start hd).1),
    C1_filter_block r all_rules "H028"
      (check_horizontal_bar line (clean_line_of line) line_num) (by decide) (by decide)
      (fun d hd => (mem_check_horizontal_bar hd).1),
    C1_filter_block r all_rules "H029"
      (check_numero_space line line_num) (by decide) (by decide)
      (fun d hd => (mem_check_numero_space hd).1),
    C1_filter_block r all_rules "H030"
      (check_question_mark_period line line_num) (by decide) (by decide)
      (fun d hd => (mem_check_question_mark_period hd).1)]

theorem C1_filter_block_cond2 (r act : List String) (c : String) (a b : Bool)
    (L : List Diag)
    (hact : act.contains c = true)
    (hne : (c == "H000") = false)
    (hL : ∀ d ∈ L, d.code = c) :
    (if (r.contains c && a && b) = true then L else []) =
      (if (act.contains c && a && b) = true then L else []).filter
        (fun d => d.code == "H000" || r.contains d.code) := by
  cases a
  · simp
  · cases b
    · simp
    · simp only [Bool.and_true]
      exact C1_filter_block r act c L hact hne hL

theorem C1_file_level (all_lines : List Str) (r : List String) (content : Str) :
    check_file_level_rules all_lines r content =
      (check_file_level_rules all_lines all_rules content).filter
        (fun d => d.code == "H000" || r.contains d.code) := by
  unfold check_file_level_rules
  rw [List.filter_append]
  rw [C1_filter_block_cond2 r all_rules "H011"
      (!all_lines.isEmpty) (!endsWith content "\n".toList)
      [⟨"H011", ruleText "H011", all_lines.length, 0⟩] (by decide) (by decide)
      (by intro d hd; simp only [List.mem_singleton] at hd; subst hd; rfl),
    C1_filter_block r all_rules "H012"
      ((List.range (all_lines.length - 1)).filterMap (fun i =>
        if (pyStrip (all_lines.getD i [])).isEmpty
            && (pyStrip (all_lines.getD (i + 1) [])).isEmpty
            && i > 0 && i + 1 < all_lines.length - 1 then
          some ⟨"H012", ruleText "H012", i + 1, 0⟩
        else none)) (by decide) (by decide)
      (by intro d hd
          simp only [List.mem_filterMap] at hd
          obtain ⟨i, -, hi⟩ := hd
          split_ifs at hi <;>
            first
              | (simp only [Option.some_inj] at hi; subst hi; rfl)
              | simp at hi)]

end MarkdownChecker

theorem flatMap_nil_aux {α β : Type} : ∀ l : List α, l.flatMap (fun _ => ([] : List β)) = []
  | [] => rfl
  | a :: rest => by rw [List.flatMap_cons, flatMap_nil_aux rest]; rfl

namespace MarkdownChecker

theorem C1_yaml (y : Str) (a : List Str) (r : List String) :
    check_yaml_rules y a r =
      (check_yaml_rules y a all_rules).filter
        (fun d => d.code == "H000" || r.contains d.code) := by
  have hall3 : all_rules.contains "H003" = true := by decide
  have hall4 : all_rules.contains "H004" = true := by decide
  have hall5 : all_rules.contains "H005" = true := by decide
  have hall3m : ("H003" : String) ∈ all_rules := by decide
  have hall4m : ("H004" : String) ∈ all_rules := by decide
  have hall5m : ("H005" : String) ∈ all_rules := by decide
  have hne3 : (("H003" : String) == "H000") = false := by decide
  have hne4 : (("H004" : String) == "H000") = false := by decide
  have hne5 : (("H005" : String) == "H000") = false := by decide
  unfold check_yaml_rules
  split
  · simp
  · rename_i data heq
    cases ht : yamlTruthy data
    · cases hc3 : r.contains "H003"
      · have hc3' : "H003" ∉ r := by simpa using hc3
        simp [ht, hc3', hall3, hall3m, hne3]
      · have hc3' : ("H003" : String) ∈ r := by simpa using hc3
        simp [ht, hc3', hall3, hall3m, hne3]
    · cases hemp : ((List.lookup ['l', 'a', 'n', 'g'] (data.getD [])).getD []).isEmpty
      · have hemp' : (List.lookup ['l', 'a', 'n', 'g'] (data.getD [])).getD [] ≠ [] := by
          simpa using hemp
        by_cases hen : (List.lookup ['l', 'a', 'n', 'g'] (data.getD [])).getD [] = ['e', 'n']
        · simp [ht, hemp, hemp', hen, hall4m, hall5m]
        · by_cases hru :
              (List.lookup ['l', 'a', 'n', 'g'] (data.getD [])).getD [] = ['r', 'u']
          · simp [ht, hemp, hemp', hen, hru, hall4m, hall5m]
          · cases hc5 : r.contains "H005"
            · have hc5' : "H005" ∉ r := by simpa using hc5
              simp [ht, hemp, hemp', hen, hru, hc5', hall4m, hall5m, hne5]
            · have hc5' : ("H005" : String) ∈ r := by simpa using hc5
              simp [ht, hemp, hemp', hen, hru, hc5', hall4m, hall5m, hne5]
      · have hemp' : (List.lookup ['l', 'a', 'n', 'g'] (data.getD [])).getD [] = [] := by
          simpa using hemp
        cases hc4 : r.contains "H004"
        · have hc4' : "H004" ∉ r := by simpa using hc4
          simp [ht, hemp, hemp', hc4', hall4m, hne4]
        · have hc4' : ("H004" : String) ∈ r := by simpa using hc4
          simp [ht, hemp, hemp', hc4', hall4m, hne4]

theorem C1_code (a : List Str) (Y : Nat) (r : List String) :
    check_code_rules a Y r =
      (check_code_rules a Y all_rules).filter
        (fun d => d.code == "H000" || r.contains d.code) := by
  have hall7 : all_rules.contains "H007" = true := by decide
  cases hc : r.contains "H007"
  · have h2 : (check_code_rules a Y all_rules).filter
        (fun d => d.code == "H000" || r.contains d.code) = [] := by
      rw [List.filter_eq_nil_iff]
      intro d hd
      rw [(mem_check_code_rules hd).1]
      simp only [(by decide : (("H007" : String) == "H000") = false), Bool.false_or, hc]
      exact Bool.false_ne_true
    rw [h2]
    simp only [check_code_rules, hc, Bool.false_and, Bool.false_eq_true, if_false]
    exact flatMap_nil_aux _
  · have h2 : (check_code_rules a Y all_rules).filter
        (fun d => d.code == "H000" || r.contains d.code) = check_code_rules a Y all_rules := by
      rw [List.filter_eq_self]
      intro d hd
      rw [(mem_check_code_rules hd).1, hc]
      simp
    rw [h2]
    simp only [check_code_rules]
    refine congrArg _ (funext fun p => ?_)
    rw [hc, hall7]

end MarkdownChecker

namespace MarkdownChecker

theorem C1_per_line (line : Str) (n : Nat) (cl : List Str) (i : Nat)
    (cbi : List (Str × Bool)) (r : List String) (Y : Nat) (lang : Str) (is_code : Bool) :
    check_all_lines_rules line n r ++
      (if !is_code then check_non_code_line_rules line n cl i cbi r Y lang else []) =
    (check_all_lines_rules line n all_rules ++
      (if !is_code then check_non_code_line_rules line n cl i cbi all_rules Y lang
       else [])).filter (fun d => d.code == "H000" || r.contains d.code) := by
  rw [List.filter_append, ← C1_all_lines line n r]
  congr 1
  cases is_code
  · rw [if_pos (show (!false) = true from rfl), if_pos (show (!false) = true from rfl)]
    exact C1_non_code line n cl i cbi r Y lang
  · rfl

theorem C1_content (a : List Str) (Y : Nat) (r : List String) (content lang : Str) :
    check_content_rules a Y r content lang =
      (check_content_rules a Y all_rules content lang).filter
        (fun d => d.code == "H000" || r.contains d.code) := by
  simp only [check_content_rules, List.filter_append]
  rw [← C1_file_level a r content]
  rw [C1_filter_block r all_rules "H023"
      (check_empty_line_between_paragraphs
        (if Y > 1 then a.drop (Y - 1) else a)
        (identifyCodeBlocks (if Y > 1 then a.drop (Y - 1) else a)) Y)
      (by decide) (by decide)
      (fun d hd => (mem_check_empty_line_between_paragraphs hd).1)]
  rw [List.filter_flatMap]
  congr 1
  exact List.flatMap_congr (fun p _ =>
    C1_per_line p.2.1 ((Y - 1) + p.1 + 1)
      (if Y > 1 then a.drop (Y - 1) else a) p.1
      (identifyCodeBlocks (if Y > 1 then a.drop (Y - 1) else a)) r Y lang p.2.2)

theorem C1_all_rules_filter (f : MDFile) (r : List String) :
    check_all_rules f r =
      (check_all_rules f all_rules).filter
        (fun d => d.code == "H000" || r.contains d.code) := by
  unfold check_all_rules
  rw [List.filter_append, ← C1_filename f r]
  congr 1
  cases hfc : f.content with
  | error e => simp
  | ok content =>
      simp only [List.filter_append]
      rw [← C1_yaml (split_yaml_content content).1 (pySplitlines content) r,
        ← C1_content (pySplitlines content) (find_yaml_end_line (pySplitlines content)) r
          content (lang_of (split_yaml_content content).1),
        ← C1_code (pySplitlines content) (find_yaml_end_line (pySplitlines content)) r]

theorem C1_contains_iff {l : List String} {a : String} : l.contains a = true ↔ a ∈ l :=
  List.elem_iff

theorem C1_contains_false_iff {l : List String} {a : String} : l.contains a = false ↔ a ∉ l := by
  rw [Bool.eq_false_iff]
  exact not_congr C1_contains_iff

end MarkdownChecker

/-- C1 counterexample: for an unreadable file with `select = some []` the
claimed filter `(S ∩ known) − E` is empty, yet `check` still reports the
H000 exception diagnostic. -/
theorem C1_select_cex :
    MarkdownChecker.checkDiags
        ⟨"foo.md".toList, "/r/foo.md".toList, "foo.md", .error "boom"⟩ (some []) none =
      [⟨"H000", "Exception error: boom", 0, 0⟩] ∧
    (MarkdownChecker.checkDiags
        ⟨"foo.md".toList, "/r/foo.md".toList, "foo.md", .error "boom"⟩ none none).filter
      (fun d => (MarkdownChecker.determine_active_rules (some []) none).contains d.code) =
      [] := by decide

/-- C1 amended: `check(f, S, E)` returns exactly the diagnostics of the
unrestricted `check(f)` whose codes lie in `(S ∩ known) − E` — except
that H000 diagnostics are always kept, regardless of `select` and
`exclude`; membership in the active set is exactly `(S ∩ known) − E`
with unknown codes in `S` or `E` having no effect. -/
theorem C1_select_exclude_amended (f : MDFile) (sel ex : Option (List String)) :
    (MarkdownChecker.checkDiags f sel ex =
      (MarkdownChecker.checkDiags f none none).filter
        (fun d => d.code == "H000" ||
          (MarkdownChecker.determine_active_rules sel ex).contains d.code)) ∧
    (∀ c : String, c ∈ MarkdownChecker.determine_active_rules sel ex ↔
      (c ∈ MarkdownChecker.all_rules ∧
        (∀ s, sel = some s → c ∈ s) ∧
        (∀ e, ex = some e → c ∉ e))) := by
  constructor
  · have h0 : MarkdownChecker.determine_active_rules none none =
        MarkdownChecker.all_rules := rfl
    unfold MarkdownChecker.checkDiags
    rw [h0]
    exact MarkdownChecker.C1_all_rules_filter f _
  · intro c
    unfold MarkdownChecker.determine_active_rules
    cases sel <;> cases ex <;>
      simp [List.mem_filter, MarkdownChecker.C1_contains_iff,
        MarkdownChecker.C1_contains_false_iff, Bool.not_eq_true] <;>
      tauto
